import Mathlib

/-!
Shallow embedding of the BadgerDB B+-tree index (`BTreeIndex`) of the
BtreeDBMS repository, together with theorems settling the frozen claims.

Source of truth: `src/unnamed/part_000` (the complete variant of
`btree.cpp`, lines 419-993), with the node/page declarations from
`src/unnamed/part_001` (`btree.h`).  Keys are C `int` values and are only
copied and compared, never subjected to arithmetic, so they are embedded
as `Int`.  Page ids (`PageId`, a `uint32` in the source) are embedded as
`Int` because the scan teardown stores `-1` into `currentPageNum`; the
only operations performed on page ids are equality tests against `0` and
map lookups.  The fixed-size C arrays inside a node are embedded as total
functions `Nat → _`; indices past the C array bound behave as phantom
slots that no transcribed code path of a settled claim ever reads (where
the C code would write out of bounds this is noted at the definition).

The leaf and inner fanouts (`INTARRAYLEAFSIZE`, `INTARRAYNONLEAFSIZE`)
are computed in `btree.h` from `Page::SIZE` and struct widths that live
outside `src/`; the embedding is therefore parametric in the two
occupancies (`L` for leaves, `N` for inner nodes), exactly as the code is
parametric in `this->leafOccupancy` / `this->nodeOccupancy`.
-/

namespace BtreeDBMS

/-- `enum Operator { LT, LTE, GTE, GT }` from btree.h. -/
inductive Operator where
  | LT
  | LTE
  | GTE
  | GT
deriving DecidableEq

/-- `enum Datatype { INTEGER, DOUBLE, STRING }` from btree.h. -/
inductive Datatype where
  | INTEGER
  | DOUBLE
  | STRING
deriving DecidableEq

/-- `RecordId` (types.h): physical record address, `page_number` plus
`slot_number`.  A zero `page_number` is the empty-slot sentinel in a
leaf's `ridArray`. -/
structure RecordId where
  page_number : Nat
  slot_number : Nat
deriving DecidableEq

/-- `RIDKeyPair<int>` from btree.h. -/
structure RIDKeyPair where
  rid : RecordId
  key : Int
deriving DecidableEq

/-- `PageKeyPair<int>` from btree.h. -/
structure PageKeyPair where
  pageNo : Int
  key : Int
deriving DecidableEq

/-- `LeafNodeInt` (btree.h): parallel key / record-id arrays plus the
right-sibling page number.  The C arrays have `INTARRAYLEAFSIZE` slots;
here they are total functions over `Nat` and every transcribed loop
carries the occupancy bound exactly as the C code does. -/
structure LeafNodeInt where
  keyArray : Nat → Int
  ridArray : Nat → RecordId
  rightSibPageNo : Int

/-- `NonLeafNodeInt` (btree.h): `level` flag (1 = children are leaves),
keys, and child page-number array (one more slot than keys). -/
structure NonLeafNodeInt where
  level : Int
  keyArray : Nat → Int
  pageNoArray : Nat → Int

/-- `IndexMetaInfo` (btree.h): the meta page.  The 20-char
`relationName` buffer is embedded as a `String`. -/
structure IndexMetaInfo where
  relationName : String
  attrByteOffset : Int
  attrType : Datatype
  rootPageNo : Int

/-- Pointwise update of a function-embedded array slot. -/
def upd {α : Type} (f : Nat → α) (i : Nat) (v : α) : Nat → α :=
  fun j => if j = i then v else f j

/-- A freshly allocated page interpreted as a leaf: all bytes zero. -/
def emptyLeaf : LeafNodeInt :=
  { keyArray := fun _ => 0
    ridArray := fun _ => ⟨0, 0⟩
    rightSibPageNo := 0 }

/-- A freshly allocated page interpreted as an inner node: all bytes zero. -/
def emptyNonLeaf : NonLeafNodeInt :=
  { level := 0
    keyArray := fun _ => 0
    pageNoArray := fun _ => 0 }

/-- A slot of a leaf is populated when its record id has a nonzero page
number (the code's emptiness test `ridArray[i].page_number == 0`). -/
def populated (l : LeafNodeInt) (i : Nat) : Prop :=
  (l.ridArray i).page_number ≠ 0

instance (l : LeafNodeInt) (i : Nat) : Decidable (populated l i) := by
  unfold populated; infer_instance

/-- First loop of `insertNodeLeaf` (part_000 lines 560-561):
`for (i = leafOccupancy - 1; i >= 0 && ridArray[i].page_number == 0; --i)`.
The argument is `i + 1` (so `0` encodes the loop having run past `i = -1`);
the initial call passes the leaf occupancy `L`. -/
def findTop (l : LeafNodeInt) : Nat → Nat
  | 0 => 0
  | t + 1 => if (l.ridArray t).page_number ≠ 0 then t + 1 else findTop l t

/-- Second loop of `insertNodeLeaf` (part_000 lines 563-566): shift the
populated tail one slot to the right while its key exceeds the new key.
The `Nat` argument is `i + 1` for the C loop variable `i`; the result is
the final node together with `i + 1`, the slot that receives the new
entry. -/
def leafShift (k : Int) : LeafNodeInt → Nat → LeafNodeInt × Nat
  | l, 0 => (l, 0)
  | l, t + 1 =>
    if l.keyArray t > k then
      leafShift k
        { l with
          keyArray := upd l.keyArray (t + 1) (l.keyArray t)
          ridArray := upd l.ridArray (t + 1) (l.ridArray t) } t
    else (l, t + 1)

/-- `BTreeIndex::insertNodeLeaf` (part_000 lines 556-575). -/
def insertNodeLeaf (L : Nat) (node : LeafNodeInt) (e : RIDKeyPair) : LeafNodeInt :=
  if (node.ridArray 0).page_number ≠ 0 then
    let p := leafShift e.key node (findTop node L)
    { p.1 with
      keyArray := upd p.1.keyArray p.2 e.key
      ridArray := upd p.1.ridArray p.2 e.rid }
  else
    { node with
      keyArray := upd node.keyArray 0 e.key
      ridArray := upd node.ridArray 0 e.rid }

/-- First loop of `insertNodeNonLeaf` (part_000 lines 584-585):
`for (i = nodeOccupancy; i >= 0 && pageNoArray[i] == 0; --i)`.  The
argument is `i + 1`; the initial call passes `N + 1` because the C loop
starts at `i = nodeOccupancy` itself. -/
def nlFindTop (n : NonLeafNodeInt) : Nat → Nat
  | 0 => 0
  | t + 1 => if n.pageNoArray t ≠ 0 then t + 1 else nlFindTop n t

/-- Second loop plus final writes of `insertNodeNonLeaf` (part_000 lines
586-592).  The `Nat` argument is the C loop variable `i` itself (only
reached with `i ≥ 0`).  When the shift runs with `i = nodeOccupancy` the
C code writes `keyArray[nodeOccupancy]` and
`pageNoArray[nodeOccupancy + 1]`, one past the arrays; those writes land
in the phantom slots of the function-embedded arrays, which no
transcribed reader consults. -/
def nlShiftIns (p : PageKeyPair) : NonLeafNodeInt → Nat → NonLeafNodeInt
  | n, 0 =>
    { n with
      keyArray := upd n.keyArray 0 p.key
      pageNoArray := upd n.pageNoArray 1 p.pageNo }
  | n, i + 1 =>
    if n.keyArray i > p.key then
      nlShiftIns p
        { n with
          keyArray := upd n.keyArray (i + 1) (n.keyArray i)
          pageNoArray := upd n.pageNoArray (i + 2) (n.pageNoArray (i + 1)) } i
    else
      { n with
        keyArray := upd n.keyArray (i + 1) p.key
        pageNoArray := upd n.pageNoArray (i + 2) p.pageNo }

/-- `BTreeIndex::insertNodeNonLeaf` (part_000 lines 581-593).  When the
node has no populated child slot at all the C loop ends with `i = -1`
and the final writes are `keyArray[-1] = key` (which in the declared
struct layout lands on the `level` field that precedes `keyArray`) and
`pageNoArray[0] = pageNo`; this branch is unreachable from a well-formed
inner node and is exercised by no settled claim. -/
def insertNodeNonLeaf (N : Nat) (node : NonLeafNodeInt) (p : PageKeyPair) :
    NonLeafNodeInt :=
  match nlFindTop node (N + 1) with
  | 0 =>
    { node with
      level := p.key
      pageNoArray := upd node.pageNoArray 0 p.pageNo }
  | m + 1 => nlShiftIns p node m

/-- Move loop of `splitLeafNode` (part_000 lines 692-699): for
`i = mid+1 .. leafOccupancy-1`, copy key and rid into the new leaf at
`index`, zero the key and the rid's `page_number` in the old leaf.
`c` is the number of remaining iterations, `i`/`idx` the two C indices. -/
def moveLeafLoop : Nat → Nat → Nat → LeafNodeInt → LeafNodeInt →
    LeafNodeInt × LeafNodeInt
  | 0, _, _, old, nw => (old, nw)
  | c + 1, i, idx, old, nw =>
    moveLeafLoop c (i + 1) (idx + 1)
      { old with
        keyArray := upd old.keyArray i 0
        ridArray := upd old.ridArray i { old.ridArray i with page_number := 0 } }
      { nw with
        keyArray := upd nw.keyArray idx (old.keyArray i)
        ridArray := upd nw.ridArray idx (old.ridArray i) }

/-- Move loop of `splitNonLeafNode` (part_000 lines 741-748): for
`i = mid+1 .. nodeOccupancy-1`, copy key and child page number into the
new inner node at `index` and zero both in the old one.  Note the loop
bound `i < nodeOccupancy`: the old node's last child slot
`pageNoArray[nodeOccupancy]` is never visited. -/
def moveNLLoop : Nat → Nat → Nat → NonLeafNodeInt → NonLeafNodeInt →
    NonLeafNodeInt × NonLeafNodeInt
  | 0, _, _, old, nw => (old, nw)
  | c + 1, i, idx, old, nw =>
    moveNLLoop c (i + 1) (idx + 1)
      { old with
        keyArray := upd old.keyArray i 0
        pageNoArray := upd old.pageNoArray i 0 }
      { nw with
        keyArray := upd nw.keyArray idx (old.keyArray i)
        pageNoArray := upd nw.pageNoArray idx (old.pageNoArray i) }

/-- Split midpoint of `splitLeafNode` (part_000 lines 688-691):
`mid = leafOccupancy / 2 - 1`, incremented when the occupancy is even and
the inserted key is `≥ keyArray[mid]`. -/
def leafSplitMid (L : Nat) (old : LeafNodeInt) (insKey : Int) : Nat :=
  if L % 2 = 0 ∧ insKey ≥ old.keyArray (L / 2 - 1) then L / 2 - 1 + 1 else L / 2 - 1

/-- The move loop of the leaf split applied at the split midpoint:
entries `mid+1 .. L-1` leave the old leaf for the new (initially
all-zero) leaf. -/
def leafMoved (L : Nat) (old : LeafNodeInt) (insKey : Int) :
    LeafNodeInt × LeafNodeInt :=
  moveLeafLoop (L - (leafSplitMid L old insKey + 1))
    (leafSplitMid L old insKey + 1) 0 old emptyLeaf

/-- Node-level content of `BTreeIndex::splitLeafNode` (part_000 lines
677-715): everything the function does to the two leaf nodes and to the
propagated pair, given the page id `newPageID` returned by `allocPage`.
Returns `(old leaf, new leaf, pair pushed up)`.  The paging, root-update
and unpin steps around it live in the state-level `splitLeafNode`. -/
def splitLeafNodeCore (L : Nat) (old : LeafNodeInt) (newPageID : Int)
    (insertRecord : RIDKeyPair) : LeafNodeInt × LeafNodeInt × PageKeyPair :=
  let inserted :=
    if insertRecord.key <
        (leafMoved L old insertRecord.key).1.keyArray
          (leafSplitMid L old insertRecord.key) then
      (insertNodeLeaf L (leafMoved L old insertRecord.key).1 insertRecord,
        (leafMoved L old insertRecord.key).2)
    else
      ((leafMoved L old insertRecord.key).1,
        insertNodeLeaf L (leafMoved L old insertRecord.key).2 insertRecord)
  let nw := { inserted.2 with rightSibPageNo := inserted.1.rightSibPageNo }
  let old2 := { inserted.1 with rightSibPageNo := newPageID }
  (old2, nw, ⟨newPageID, nw.keyArray 0⟩)

/-- Split midpoint of `splitNonLeafNode` (part_000 lines 735-738): the
leaf formula, then `mid++` once more so the left part is larger by one. -/
def nlSplitMid (N : Nat) (old : NonLeafNodeInt) (pushKey : Int) : Nat :=
  (if N % 2 = 0 ∧ pushKey ≥ old.keyArray (N / 2 - 1) then N / 2 - 1 + 1
   else N / 2 - 1) + 1

/-- Node-level content of `BTreeIndex::splitNonLeafNode` (part_000 lines
727-767): the move loop, the insertion of the incoming propagated pair
into one of the halves, the `level` copy, the upward pair
`(newPageID, oldKeys[mid])`, and the zeroing of `keyArray[mid]` and
`pageNoArray[mid]` in the old node.  Returns
`(old node, new node, pair pushed up)`. -/
def splitNonLeafNodeCore (N : Nat) (old : NonLeafNodeInt) (newPageID : Int)
    (pushUp : PageKeyPair) : NonLeafNodeInt × NonLeafNodeInt × PageKeyPair :=
  let mid := nlSplitMid N old pushUp.key
  let moved := moveNLLoop (N - (mid + 1)) (mid + 1) 0 old emptyNonLeaf
  let inserted :=
    if pushUp.key < moved.2.keyArray 0 then
      (insertNodeNonLeaf N moved.1 pushUp, moved.2)
    else
      (moved.1, insertNodeNonLeaf N moved.2 pushUp)
  let nw := { inserted.2 with level := inserted.1.level }
  let middle : PageKeyPair := ⟨newPageID, inserted.1.keyArray mid⟩
  let old2 :=
    { inserted.1 with
      keyArray := upd inserted.1.keyArray mid 0
      pageNoArray := upd inserted.1.pageNoArray mid 0 }
  (old2, nw, middle)

/-- Contents of one page frame of the index file. -/
inductive PageContent where
  | leaf (l : LeafNodeInt)
  | inner (n : NonLeafNodeInt)
  | metaPage (m : IndexMetaInfo)
  | unallocated

/-- The observable state of an open `BTreeIndex` handle together with the
index file's pages and a net pin counter for the paging layer (each
`readPage`/`allocPage` adds one pin, each `unPinPage` removes one). -/
structure BTState where
  pages : Int → PageContent
  rootPageNum : Int
  headerPageNum : Int
  initial : Int
  nextPage : Int
  scanExecuting : Bool
  nextEntry : Int
  currentPageNum : Int
  lowValInt : Int
  highValInt : Int
  lowOp : Operator
  highOp : Operator
  pins : Int

/-- Store new content into one page frame. -/
def setPage (pg : Int → PageContent) (p : Int) (v : PageContent) :
    Int → PageContent :=
  fun q => if q = p then v else pg q

/-- The meta-page view of the header page (the cast
`(IndexMetaInfo *)metaPage` of the source). -/
def metaAt (s : BTState) : IndexMetaInfo :=
  match s.pages s.headerPageNum with
  | PageContent.metaPage m => m
  | _ => ⟨"", 0, Datatype.INTEGER, 0⟩

/-- The leaf view of a page (the cast `(LeafNodeInt *)page`). -/
def leafAt (s : BTState) (p : Int) : LeafNodeInt :=
  match s.pages p with
  | PageContent.leaf l => l
  | _ => emptyLeaf

/-- `BTreeIndex::updateRoot` (part_000 lines 779-802): allocate a fresh
inner page as the new root with the single separator `pushUp.key`, child
0 the old root and child 1 the newly allocated sibling; `level` is 1 when
the current root is still the initial (leaf) root; write the new root id
into the meta page and into the in-memory `rootPageNum`; unpin the new
root and the header page (both dirty). -/
def updateRoot (s : BTState) (oldRootID : Int) (pushUp : PageKeyPair) : BTState :=
  let newRootID := s.nextPage
  let s1 := { s with nextPage := s.nextPage + 1, pins := s.pins + 1 }
  let s2 := { s1 with pins := s1.pins + 1 }
  let m := metaAt s2
  let s3 :=
    { s2 with
      pages := setPage s2.pages s2.headerPageNum
        (PageContent.metaPage { m with rootPageNo := newRootID }) }
  let lvl : Int := if s3.initial = s3.rootPageNum then 1 else 0
  let node : NonLeafNodeInt :=
    { level := lvl
      keyArray := upd emptyNonLeaf.keyArray 0 pushUp.key
      pageNoArray := upd (upd emptyNonLeaf.pageNoArray 0 oldRootID) 1 pushUp.pageNo }
  let s4 :=
    { s3 with
      rootPageNum := newRootID
      pages := setPage s3.pages newRootID (PageContent.inner node) }
  { s4 with pins := s4.pins - 2 }

/-- State-level `BTreeIndex::splitLeafNode` (part_000 lines 677-725):
`allocPage` the sibling, run the node-level split, write both leaves
back, call `updateRoot` when the old leaf is the root, then unpin the old
and the new page (dirty).  Returns the state and the pair left in
`pushUpPage`. -/
def splitLeafNode (L : Nat) (s : BTState) (oldNode : LeafNodeInt)
    (oldPageID : Int) (ins : RIDKeyPair) : BTState × Option PageKeyPair :=
  let newPageID := s.nextPage
  let s1 := { s with nextPage := s.nextPage + 1, pins := s.pins + 1 }
  let r := splitLeafNodeCore L oldNode newPageID ins
  let s2 :=
    { s1 with
      pages := setPage (setPage s1.pages oldPageID (PageContent.leaf r.1))
        newPageID (PageContent.leaf r.2.1) }
  let s3 := if oldPageID = s2.rootPageNum then updateRoot s2 s2.rootPageNum r.2.2 else s2
  ({ s3 with pins := s3.pins - 2 }, some r.2.2)

/-- State-level `BTreeIndex::splitNonLeafNode` (part_000 lines 727-777),
with the same paging envelope as the leaf split. -/
def splitNonLeafNode (N : Nat) (s : BTState) (oldNode : NonLeafNodeInt)
    (oldPageID : Int) (pushUp : PageKeyPair) : BTState × Option PageKeyPair :=
  let newPageID := s.nextPage
  let s1 := { s with nextPage := s.nextPage + 1, pins := s.pins + 1 }
  let r := splitNonLeafNodeCore N oldNode newPageID pushUp
  let s2 :=
    { s1 with
      pages := setPage (setPage s1.pages oldPageID (PageContent.inner r.1))
        newPageID (PageContent.inner r.2.1) }
  let s3 := if oldPageID = s2.rootPageNum then updateRoot s2 s2.rootPageNum r.2.2 else s2
  ({ s3 with pins := s3.pins - 2 }, some r.2.2)

/-- Child-descent loop of `insertEntryHelper` (part_000 line 609):
`for (; i > 0 && keyArray[i-1] >= entry.key; --i)`.  The argument is the
C loop variable `i`. -/
def nlDescendIdx (n : NonLeafNodeInt) (k : Int) : Nat → Nat
  | 0 => 0
  | m + 1 => if n.keyArray m ≥ k then nlDescendIdx n k m else m + 1

/-- `BTreeIndex::insertEntryHelper` (part_000 lines 599-648).  `fuel`
bounds the recursion depth; `none` means the fuel ran out or a page cast
met content of the wrong kind (reinterpreting foreign bytes, which the
embedding cannot follow).  Returns the state and the `entryPropPair`
reference parameter. -/
def insertEntryHelper (L N : Nat) :
    Nat → BTState → RIDKeyPair → Int → Bool → Option (BTState × Option PageKeyPair)
  | 0, _, _, _, _ => none
  | fuel + 1, s, entry, currPageNum, isLeafNode =>
    if isLeafNode then
      match s.pages currPageNum with
      | PageContent.leaf node =>
        if (node.ridArray (L - 1)).page_number = 0 then
          some ({ s with
                    pages := setPage s.pages currPageNum
                      (PageContent.leaf (insertNodeLeaf L node entry))
                    pins := s.pins - 1 }, none)
        else
          some (splitLeafNode L s node currPageNum entry)
      | _ => none
    else
      match s.pages currPageNum with
      | PageContent.inner node =>
        match nlFindTop node (N + 1) with
        | 0 => none
        | m + 1 =>
          match insertEntryHelper L N fuel { s with pins := s.pins + 1 } entry
              (node.pageNoArray (nlDescendIdx node entry.key m)) (node.level ≠ 0) with
          | none => none
          | some (s2, some p) =>
            if node.pageNoArray N = 0 then
              some ({ s2 with
                        pages := setPage s2.pages currPageNum
                          (PageContent.inner (insertNodeNonLeaf N node p))
                        pins := s2.pins - 1 }, none)
            else
              some (splitNonLeafNode N s2 node currPageNum p)
          | some (s2, none) => some ({ s2 with pins := s2.pins - 1 }, none)
      | _ => none

/-- `BTreeIndex::insertEntry` (part_000 lines 654-675): pin the root page
and run the recursive helper, telling it the root is a leaf exactly when
`rootPageNum` still equals the remembered `initial` root id. -/
def insertEntry (L N : Nat) (fuel : Nat) (s : BTState) (key : Int)
    (rid : RecordId) : Option BTState :=
  if s.rootPageNum ≠ s.initial then
    (insertEntryHelper L N fuel { s with pins := s.pins + 1 } ⟨rid, key⟩
      s.rootPageNum false).map (fun r => r.1)
  else
    (insertEntryHelper L N fuel { s with pins := s.pins + 1 } ⟨rid, key⟩
      s.rootPageNum true).map (fun r => r.1)

/-- Outcome of `startScan`: normal return, one of its three exceptions,
or `stuck` when the embedding's fuel runs out / a cast meets foreign
page content. -/
inductive StartScanRes where
  | ok
  | badOpcodes
  | badScanRange
  | noSuchKey
  | stuck
deriving DecidableEq

/-- Outcome of `scanNext`. -/
inductive ScanNextRes where
  | ok (r : RecordId)
  | notInitialized
  | completed
  | stuck
deriving DecidableEq

/-- Outcome of `endScan`. -/
inductive EndScanRes where
  | ok
  | notInitialized
deriving DecidableEq

/-- The scan-range test shared by the leaf search of `startScan`
(part_000 lines 894-901) and by `scanNext` (lines 959-970): the four
operator combinations spelled out. -/
def scanMatch (lowOp highOp : Operator) (lowVal highVal k : Int) : Prop :=
  (lowOp = Operator.GT ∧ highOp = Operator.LTE ∧ k ≤ highVal ∧ k > lowVal) ∨
  (lowOp = Operator.GTE ∧ highOp = Operator.LTE ∧ k ≤ highVal ∧ k ≥ lowVal) ∨
  (lowOp = Operator.GTE ∧ highOp = Operator.LT ∧ k < highVal ∧ k ≥ lowVal) ∨
  (lowOp = Operator.GT ∧ highOp = Operator.LT ∧ k < highVal ∧ k > lowVal)

instance (lowOp highOp : Operator) (lowVal highVal k : Int) :
    Decidable (scanMatch lowOp highOp lowVal highVal k) := by
  unfold scanMatch; infer_instance

/-- The high-bound violation test of the `startScan` leaf search
(part_000 lines 906-907). -/
def highViolated (highOp : Operator) (highVal k : Int) : Prop :=
  (highOp = Operator.LT ∧ k ≥ highVal) ∨ (highOp = Operator.LTE ∧ k > highVal)

instance (highOp : Operator) (highVal k : Int) :
    Decidable (highViolated highOp highVal k) := by
  unfold highViolated; infer_instance

/-- State effects of the active branch of `BTreeIndex::endScan` (part_000
lines 987-992): null the page pointer, unpin the current leaf (clean),
clear `scanExecuting`, set `currentPageNum` and `nextEntry` to `-1`. -/
def endScanState (s : BTState) : BTState :=
  { s with
    pins := s.pins - 1
    scanExecuting := false
    currentPageNum := -1
    nextEntry := -1 }

/-- `BTreeIndex::endScan` (part_000 lines 982-993). -/
def endScan (s : BTState) : EndScanRes × BTState :=
  if s.scanExecuting = false then (EndScanRes.notInitialized, s)
  else (EndScanRes.ok, endScanState s)

/-- Child-choice loop of the `startScan` descent (part_000 lines 863-866):
`while (index < nodeOccupancy && keyArray[index] <= lowValInt &&
pageNoArray[index+1] != 0) index++`.  First argument is `index`, second
counts the remaining iterations down from `N`. -/
def scanIdx (cur : NonLeafNodeInt) (lowVal : Int) : Nat → Nat → Nat
  | i, 0 => i
  | i, c + 1 =>
    if cur.keyArray i ≤ lowVal ∧ cur.pageNoArray (i + 1) ≠ 0 then
      scanIdx cur lowVal (i + 1) c
    else i

/-- Root-to-leaf descent of `startScan` (part_000 lines 851-875): at each
inner node remember whether the next level is leaves (`level == 1`),
choose the child, unpin the current page (clean) and pin the child. -/
def scanDescend (N : Nat) (lowVal : Int) : Nat → BTState → StartScanRes × BTState
  | 0, s => (StartScanRes.stuck, s)
  | fuel + 1, s =>
    match s.pages s.currentPageNum with
    | PageContent.inner cur =>
      let foundLeaf := cur.level = 1
      let index := scanIdx cur lowVal 0 N
      let s1 := { s with pins := s.pins - 1 }
      let s2 := { s1 with currentPageNum := cur.pageNoArray index, pins := s1.pins + 1 }
      if foundLeaf then (StartScanRes.ok, s2) else scanDescend N lowVal fuel s2
    | _ => (StartScanRes.stuck, s)

/-- Result of one pass of the `for` loop over a leaf inside the
`startScan` search (part_000 lines 885-920): either a terminal outcome or
"advance to the right sibling and rerun the outer `while`". -/
inductive RowOut where
  | done (r : StartScanRes) (s : BTState)
  | nextLeaf (s : BTState)

/-- The `for (i = 0; i < leafOccupancy; i++)` body of the `startScan`
leaf search (part_000 lines 885-920).  `i` is the loop index and `c` the
remaining iterations (`L - i`); `nextNull` of the source is the inlined
`i < L - 1 ∧ ridArray[i+1].page_number = 0`.  On a match it records
`scanExecuting = true` and `nextEntry = i`, keeping the leaf pinned; on
advancing to the sibling it unpins the page and pins the sibling. -/
def scanLeafRow (L : Nat) (lowOp highOp : Operator) (lowVal highVal : Int)
    (cur : LeafNodeInt) : Nat → Nat → BTState → RowOut
  | _, 0, s => RowOut.done StartScanRes.stuck s
  | i, c + 1, s =>
    if scanMatch lowOp highOp lowVal highVal (cur.keyArray i) then
      RowOut.done StartScanRes.ok
        { s with scanExecuting := true, nextEntry := (i : Int) }
    else if highViolated highOp highVal (cur.keyArray i) then
      RowOut.done StartScanRes.noSuchKey { s with pins := s.pins - 1 }
    else if i = L - 1 ∨ (i < L - 1 ∧ (cur.ridArray (i + 1)).page_number = 0) then
      if cur.rightSibPageNo = 0 then
        RowOut.done StartScanRes.noSuchKey { s with pins := s.pins - 1 }
      else
        RowOut.nextLeaf
          { s with currentPageNum := cur.rightSibPageNo, pins := s.pins - 1 + 1 }
    else scanLeafRow L lowOp highOp lowVal highVal cur (i + 1) c s

/-- The `while (!found)` leaf search of `startScan` (part_000 lines
876-921), including the empty-page test at the top of each pass. -/
def scanLeafFind (L : Nat) (lowOp highOp : Operator) (lowVal highVal : Int) :
    Nat → BTState → StartScanRes × BTState
  | 0, s => (StartScanRes.stuck, s)
  | fuel + 1, s =>
    match s.pages s.currentPageNum with
    | PageContent.leaf cur =>
      if (cur.ridArray 0).page_number = 0 then
        (StartScanRes.noSuchKey, { s with pins := s.pins - 1 })
      else
        match scanLeafRow L lowOp highOp lowVal highVal cur 0 L s with
        | RowOut.done r s1 => (r, s1)
        | RowOut.nextLeaf s1 => scanLeafFind L lowOp highOp lowVal highVal fuel s1
    | _ => (StartScanRes.stuck, s)

/-- Seek phase of `startScan` (part_000 lines 851-921), entered with the
root already pinned and `currentPageNum` set to it: descend unless the
root is still the initial leaf, then search the leaf level. -/
def startScanSeek (L N : Nat) (fuel : Nat) (lowVal : Int) (lowOp : Operator)
    (highVal : Int) (highOp : Operator) (s3 : BTState) : StartScanRes × BTState :=
  match (if s3.initial ≠ s3.currentPageNum then scanDescend N lowVal fuel s3
         else (StartScanRes.ok, s3)) with
  | (StartScanRes.ok, s4) => scanLeafFind L lowOp highOp lowVal highVal fuel s4
  | r => r

/-- Opening steps of `startScan` (part_000 lines 830-837): end any
active scan, then overwrite the four stored predicate fields with the
new arguments. -/
def startScanStore (s : BTState) (lowVal highVal : Int)
    (lowOp highOp : Operator) : BTState :=
  { (if s.scanExecuting then endScanState s else s) with
    lowValInt := lowVal
    highValInt := highVal
    lowOp := lowOp
    highOp := highOp }

/-- `BTreeIndex::startScan` (part_000 lines 828-922): end any active
scan, store the four predicate fields, reject bad operators then a bad
range, pin the root, and run the seek phase. -/
def startScan (L N : Nat) (fuel : Nat) (s : BTState) (lowVal : Int)
    (lowOp : Operator) (highVal : Int) (highOp : Operator) :
    StartScanRes × BTState :=
  if ¬((lowOp = Operator.GT ∨ lowOp = Operator.GTE) ∧
        (highOp = Operator.LT ∨ highOp = Operator.LTE)) then
    (StartScanRes.badOpcodes, startScanStore s lowVal highVal lowOp highOp)
  else if lowVal > highVal then
    (StartScanRes.badScanRange, startScanStore s lowVal highVal lowOp highOp)
  else
    startScanSeek L N fuel lowVal lowOp highVal highOp
      { startScanStore s lowVal highVal lowOp highOp with
        currentPageNum := (startScanStore s lowVal highVal lowOp highOp).rootPageNum
        pins := (startScanStore s lowVal highVal lowOp highOp).pins + 1 }

/-- Predicate test of `scanNext` on the entry at `nextEntry` (part_000
lines 959-975). -/
def scanNextCheck (s : BTState) (cur : LeafNodeInt) : ScanNextRes × BTState :=
  let k := cur.keyArray s.nextEntry.toNat
  if scanMatch s.lowOp s.highOp s.lowValInt s.highValInt k then
    (ScanNextRes.ok (cur.ridArray s.nextEntry.toNat),
      { s with nextEntry := s.nextEntry + 1 })
  else (ScanNextRes.completed, s)

/-- `BTreeIndex::scanNext` (part_000 lines 936-976).  When the slot at
`nextEntry` is empty **or `nextEntry` is already the last slot index
`leafOccupancy - 1`**, the current page is unpinned and the scan moves to
the right sibling (raising `IndexScanCompleted` when there is none);
otherwise the entry is tested against the stored predicate. -/
def scanNext (L : Nat) (s : BTState) : ScanNextRes × BTState :=
  if s.scanExecuting = false then (ScanNextRes.notInitialized, s)
  else
    match s.pages s.currentPageNum with
    | PageContent.leaf cur =>
      if (cur.ridArray s.nextEntry.toNat).page_number = 0 ∨
          s.nextEntry = (L : Int) - 1 then
        let s1 := { s with pins := s.pins - 1 }
        if cur.rightSibPageNo = 0 then (ScanNextRes.completed, s1)
        else
          let s2 :=
            { s1 with
              currentPageNum := cur.rightSibPageNo
              pins := s1.pins + 1
              nextEntry := 0 }
          match s2.pages s2.currentPageNum with
          | PageContent.leaf cur2 => scanNextCheck s2 cur2
          | _ => (ScanNextRes.stuck, s2)
      else scanNextCheck s cur
    | _ => (ScanNextRes.stuck, s)

/-- Drive `scanNext` until it stops yielding records; collects the
returned record ids in order. -/
def collectScan (L : Nat) : Nat → BTState → List RecordId → List RecordId × BTState
  | 0, s, acc => (acc.reverse, s)
  | fuel + 1, s, acc =>
    match scanNext L s with
    | (ScanNextRes.ok r, s1) => collectScan L fuel s1 (r :: acc)
    | (_, s1) => (acc.reverse, s1)

/-- Outcome of closing the index (the destructor). -/
inductive CloseRes where
  | normal
  | raised
deriving DecidableEq

/-- Modelled from the spec: `BufMgr::flushFile` is declared in the
buffer layer, whose implementation is not under `src/`; spec section 6
specifies `flush_file(file)` as "writes all dirty frames for this file to
disk" with no failure mode, so it is embedded as a total state map (the
embedding applies page writes eagerly, so flushing changes nothing
observable). -/
def flushFile (s : BTState) : BTState := s

/-- `BTreeIndex::~BTreeIndex` (part_000 lines 545-550): flush the file,
clear `scanExecuting`, delete the file handle.  The body contains no
conditional raise. -/
def closeIndex (s : BTState) : CloseRes × BTState :=
  (CloseRes.normal, { flushFile s with scanExecuting := false })

/-- Outcome of the constructor's open-existing branch. -/
inductive OpenRes where
  | ok
  | badIndexInfo
deriving DecidableEq

/-- Pin ledger of the open-existing branch of the constructor (part_000
lines 479-495): `readPage` pins the header page, the three meta fields
are compared with the caller's arguments, `BadIndexInfoException` is
thrown on mismatch, and the unpin of the header page sits *after* the
throw.  Returns the outcome and the net number of pins still held on
exit. -/
def openExistingPins (relationName : String) (attrByteOffset : Int)
    (attrType : Datatype) (meta : IndexMetaInfo) : OpenRes × Int :=
  let pins : Int := 1
  if relationName ≠ meta.relationName ∨ attrByteOffset ≠ meta.attrByteOffset ∨
      attrType ≠ meta.attrType then
    (OpenRes.badIndexInfo, pins)
  else (OpenRes.ok, pins - 1)

/-- The handle state right after the create-new-file branch of the
constructor initialised the meta page (page 1) and the initial empty
leaf root (page 2), before the bulk build (part_000 lines 497-519). -/
def newIndexState : BTState :=
  { pages := fun p =>
      if p = 1 then PageContent.metaPage ⟨"relation", 0, Datatype.INTEGER, 2⟩
      else if p = 2 then PageContent.leaf emptyLeaf
      else PageContent.unallocated
    rootPageNum := 2
    headerPageNum := 1
    initial := 2
    nextPage := 3
    scanExecuting := false
    nextEntry := 0
    currentPageNum := 0
    lowValInt := 0
    highValInt := 0
    lowOp := Operator.GT
    highOp := Operator.LT
    pins := 0 }

instance : Inhabited BTState := ⟨newIndexState⟩

/-- The operator validity condition of `startScan`
(`(lowOp == GT || lowOp == GTE) && (highOp == LT || highOp == LTE)`). -/
def validOps (lowOp highOp : Operator) : Prop :=
  (lowOp = Operator.GT ∨ lowOp = Operator.GTE) ∧
  (highOp = Operator.LT ∨ highOp = Operator.LTE)

instance (lowOp highOp : Operator) : Decidable (validOps lowOp highOp) := by
  unfold validOps; infer_instance

/-- Strict record-address order (compare page number, then slot number),
as the spec's tie-break on equal keys. -/
def ridAddrLt (a b : RecordId) : Prop :=
  a.page_number < b.page_number ∨
  (a.page_number = b.page_number ∧ a.slot_number < b.slot_number)

instance (a b : RecordId) : Decidable (ridAddrLt a b) := by
  unfold ridAddrLt; infer_instance

/-- The ordering claimed for leaves: over the populated prefix, keys
strictly ascend, and entries tied on key strictly ascend by record
address. -/
def leafTieOrdered (L : Nat) (l : LeafNodeInt) : Prop :=
  ∀ j, j < L → ∀ i, i < j → populated l j →
    (l.keyArray i < l.keyArray j ∨
      (l.keyArray i = l.keyArray j ∧ ridAddrLt (l.ridArray i) (l.ridArray j)))

instance (L : Nat) (l : LeafNodeInt) : Decidable (leafTieOrdered L l) := by
  unfold leafTieOrdered; infer_instance

/-- Per-leaf well-formedness actually maintained by the code: populated
slots form a prefix, and keys are non-decreasing along that prefix. -/
def leafInv (L : Nat) (l : LeafNodeInt) : Prop :=
  (∀ i, i + 1 < L → populated l (i + 1) → populated l i) ∧
  (∀ i, i + 1 < L → populated l (i + 1) → l.keyArray i ≤ l.keyArray (i + 1))

/-- Every page holding leaf content satisfies `leafInv`. -/
def leavesSortedP (L : Nat) (pg : Int → PageContent) : Prop :=
  ∀ p l, pg p = PageContent.leaf l → leafInv L l

/-- C1 scenario: a fresh index with leaf occupancy 4, the four entries
`(1,(101,1)) (2,(102,1)) (3,(103,1)) (4,(104,1))` inserted in key
order — the root stays a single, exactly full leaf. -/
def c1Run : Option BTState :=
  (insertEntry 4 4 3 newIndexState 1 ⟨101, 1⟩).bind fun t1 =>
    (insertEntry 4 4 3 t1 2 ⟨102, 1⟩).bind fun t2 =>
      (insertEntry 4 4 3 t2 3 ⟨103, 1⟩).bind fun t3 =>
        insertEntry 4 4 3 t3 4 ⟨104, 1⟩

/-- C1 scenario: `startScan(1, GTE, 4, LTE)` over that index. -/
def c1Scan : StartScanRes × BTState :=
  startScan 4 4 5 (c1Run.getD default) 1 Operator.GTE 4 Operator.LTE

/-- C1 scenario: all records yielded by repeated `scanNext` calls. -/
def c1Out : List RecordId × BTState := collectScan 4 8 c1Scan.2 []

/-- C6 scenario: two entries with the same key 5 but record addresses in
decreasing page-number order, inserted into a fresh occupancy-4 index. -/
def c6Run : Option BTState :=
  (insertEntry 4 4 3 newIndexState 5 ⟨9, 1⟩).bind fun t1 =>
    insertEntry 4 4 3 t1 5 ⟨2, 1⟩

/-- C3 scenario: a completely full inner node at occupancy 5 (keys
10..50, children 1..6, level 0), split by the propagated pair
`(page 99, key 45)` into the freshly allocated page 77. -/
def c3Old : NonLeafNodeInt :=
  { level := 0
    keyArray := fun i => ([10, 20, 30, 40, 50] : List Int).getD i 0
    pageNoArray := fun i => ([1, 2, 3, 4, 5, 6] : List Int).getD i 0 }

/-- C3 scenario: the result of the inner split. -/
def c3Res : NonLeafNodeInt × NonLeafNodeInt × PageKeyPair :=
  splitNonLeafNodeCore 5 c3Old 77 ⟨99, 45⟩

/-- C7 scenario: an active scan (predicate `1 ≤ k ≤ 2`, occupancy 4)
positioned one past the two populated entries of its leaf, whose
right-sibling pointer is 0 — the next `scanNext` call completes the
scan. -/
def c7State : BTState :=
  { newIndexState with
    pages := fun p =>
      if p = 1 then PageContent.metaPage ⟨"relation", 0, Datatype.INTEGER, 2⟩
      else if p = 2 then
        PageContent.leaf
          { keyArray := fun i => ([1, 2] : List Int).getD i 0
            ridArray := fun i => if i < 2 then ⟨100 + i, 1⟩ else ⟨0, 0⟩
            rightSibPageNo := 0 }
      else PageContent.unallocated
    scanExecuting := true
    nextEntry := 2
    currentPageNum := 2
    lowValInt := 1
    highValInt := 2
    lowOp := Operator.GTE
    highOp := Operator.LTE
    pins := 1 }

/-- C4 witness scenario: a full leaf at occupancy 4 (keys 1,3,5,7 with
populated record ids, right sibling 55) split by inserting key 4. -/
def c4Old : LeafNodeInt :=
  { keyArray := fun i => ([1, 3, 5, 7] : List Int).getD i 0
    ridArray := fun i => if i < 4 then ⟨10 + i, 1⟩ else ⟨0, 0⟩
    rightSibPageNo := 55 }

/-- C5 witness scenario: a state whose root (page 2, the initial leaf
root) is being replaced after a split pushed up `(page 3, key 42)`. -/
def c5State : BTState :=
  { newIndexState with nextPage := 4, pins := 2 }

/-!
Theorems settling the claims.
-/

/-- C1.  The round-trip property fails on the code: inserting the four
entries with keys 1,2,3,4 (distinct record ids) into a fresh index of
leaf occupancy 4 and range-scanning `[1,4]` with `GTE`/`LTE` yields only
the record ids of keys 1, 2 and 3 — `scanNext` treats
`nextEntry == leafOccupancy - 1` as page-exhausted and therefore skips
the last populated slot of an exactly full leaf, so the record id
`(104,1)` of key 4 is never returned. -/
theorem c1_full_leaf_scan_drops_last_entry :
    c1Run.isSome = true ∧
    c1Scan.1 = StartScanRes.ok ∧
    c1Out.1 = [⟨101, 1⟩, ⟨102, 1⟩, ⟨103, 1⟩] ∧
    (⟨104, 1⟩ : RecordId) ∉ c1Out.1 := by
  decide

/-- C2.  The pin-balance claim fails on the constructor's `BadIndexInfo`
path: opening an existing index whose stored meta fields differ from the
caller's arguments raises `BadIndexInfoException` while the header page
is still pinned (the unpin at part_000 line 495 sits after the throw at
line 492), so the operation exits with one pin outstanding instead of
zero. -/
theorem c2_badIndexInfo_leaves_header_pinned :
    openExistingPins "relA" 4 Datatype.INTEGER ⟨"relB", 4, Datatype.INTEGER, 2⟩ =
      (OpenRes.badIndexInfo, 1) ∧
    (openExistingPins "relA" 4 Datatype.INTEGER
        ⟨"relB", 4, Datatype.INTEGER, 2⟩).2 ≠ 0 := by
  constructor
  · rfl
  · decide

/-- C3.  The inner-split claim fails on the code: splitting the full
occupancy-5 inner node with keys 10..50 and children 1..6 on the
propagated pair `(99, 45)` does move the separator up
(`(oldKeys[m], new id) = (30, 77)` with the key slot zeroed, and the
new node keeps the old node's level), but the old node's last child
pointer 6 is never transferred to the new node (it stays behind in
`pageNoArray[5]` of the old node), and the child pointer 3 at position
`m = 2` is zeroed out of the old node and appears in neither node — a
child of the tree is lost. -/
theorem c3_splitNonLeaf_drops_child_pointers :
    c3Res.2.2 = (⟨77, 30⟩ : PageKeyPair) ∧
    c3Res.1.keyArray 2 = 0 ∧
    c3Res.1.pageNoArray 2 = 0 ∧
    c3Res.1.pageNoArray 5 = 6 ∧
    (∀ j, j < 6 → c3Res.2.1.pageNoArray j ≠ 3) ∧
    (∀ j, j < 6 → c3Res.2.1.pageNoArray j ≠ 6) ∧
    c3Res.2.1.level = c3Old.level := by
  decide

/-- C6 counterexample.  Inserting key 5 with record id `(9,1)` and then
key 5 with record id `(2,1)` into a fresh occupancy-4 index completes,
yet the root leaf's populated prefix is not ordered with the claimed
record-address tie-break: slot 0 holds `(5,(9,1))` and slot 1 holds
`(5,(2,1))`, equal keys with record addresses in decreasing order. -/
theorem c6_equal_keys_not_rid_ordered :
    c6Run.isSome = true ∧
    (leafAt (c6Run.getD default) 2).keyArray 0 = 5 ∧
    (leafAt (c6Run.getD default) 2).keyArray 1 = 5 ∧
    (leafAt (c6Run.getD default) 2).ridArray 0 = ⟨9, 1⟩ ∧
    (leafAt (c6Run.getD default) 2).ridArray 1 = ⟨2, 1⟩ ∧
    ¬ leafTieOrdered 4 (leafAt (c6Run.getD default) 2) := by
  decide

/-- C7 counterexample.  From the concrete active-scan state `c7State`,
`scanNext` raises `IndexScanCompleted`, yet the scan is *not* made
inactive (`scanExecuting` stays `true`), and the immediately following
`endScan` does not raise `ScanNotInitialized` — it returns normally
(and issues a second unpin of the already-unpinned leaf, driving the pin
ledger to -1). -/
theorem c7_endScan_after_completed_does_not_raise :
    (scanNext 4 c7State).1 = ScanNextRes.completed ∧
    (scanNext 4 c7State).2.scanExecuting = true ∧
    (endScan (scanNext 4 c7State).2).1 = EndScanRes.ok ∧
    (endScan (scanNext 4 c7State).2).2.pins = -1 := by
  decide

lemma upd_self {α : Type} (f : Nat → α) (i : Nat) (v : α) : upd f i v i = v := by
  simp [upd]

lemma upd_ne {α : Type} (f : Nat → α) (i j : Nat) (v : α) (h : j ≠ i) :
    upd f i v j = f j := by
  simp [upd, h]

lemma setPage_self (pg : Int → PageContent) (p : Int) (v : PageContent) :
    setPage pg p v p = v := by
  simp [setPage]

lemma setPage_ne (pg : Int → PageContent) (p q : Int) (v : PageContent)
    (h : q ≠ p) : setPage pg p v q = pg q := by
  simp [setPage, h]

/-- C9.  Closing the index (the destructor) raises nothing, for every
handle state, including one with an active scan whose leaf is still
pinned: the body only flushes the file, clears `scanExecuting` and
deletes the file handle. -/
theorem c9_close_never_raises (s : BTState) :
    (closeIndex s).1 = CloseRes.normal ∧ (closeIndex s).2.scanExecuting = false :=
  ⟨rfl, rfl⟩

lemma scanNextCheck_scanExecuting (s : BTState) (cur : LeafNodeInt) :
    (scanNextCheck s cur).2.scanExecuting = s.scanExecuting := by
  unfold scanNextCheck
  dsimp only
  split <;> rfl

lemma scanNext_scanExecuting (L : Nat) (s : BTState) :
    (scanNext L s).2.scanExecuting = s.scanExecuting := by
  unfold scanNext
  split
  · rfl
  · split
    · dsimp only
      split
      · split
        · rfl
        · split
          · rw [scanNextCheck_scanExecuting]
          · rfl
      · rw [scanNextCheck_scanExecuting]
    · rfl

lemma scanNext_completed_executing (L : Nat) (s : BTState)
    (h : (scanNext L s).1 = ScanNextRes.completed) : s.scanExecuting = true := by
  by_contra hb
  have hfalse : s.scanExecuting = false := by
    cases hx : s.scanExecuting
    · rfl
    · exact absurd hx hb
  unfold scanNext at h
  rw [if_pos hfalse] at h
  exact ScanNextRes.noConfusion h

/-- C7 (amended).  Once a `scanNext` call raises `IndexScanCompleted`,
the scan is *still marked executing* (`scanExecuting` remains `true`), so
an immediately following `endScan` does not raise `ScanNotInitialized`:
it returns normally, unpinning and clearing the scan state. -/
theorem c7_completed_scan_still_executing (L : Nat) (s : BTState)
    (h : (scanNext L s).1 = ScanNextRes.completed) :
    (scanNext L s).2.scanExecuting = true ∧
    (endScan (scanNext L s).2).1 = EndScanRes.ok ∧
    (endScan (scanNext L s).2).2.scanExecuting = false := by
  have h1 : (scanNext L s).2.scanExecuting = true := by
    rw [scanNext_scanExecuting]
    exact scanNext_completed_executing L s h
  refine ⟨h1, ?_, ?_⟩
  · unfold endScan
    rw [h1]
    simp
  · unfold endScan
    rw [h1]
    simp [endScanState]

/-- C7 witness for `c7_completed_scan_still_executing`: the concrete
scan state `c7State` discharges its hypothesis. -/
theorem c7_completed_scan_still_executing_witness :
    (scanNext 4 c7State).1 = ScanNextRes.completed ∧
    ((scanNext 4 c7State).2.scanExecuting = true ∧
      (endScan (scanNext 4 c7State).2).1 = EndScanRes.ok ∧
      (endScan (scanNext 4 c7State).2).2.scanExecuting = false) :=
  ⟨by decide, c7_completed_scan_still_executing 4 c7State (by decide)⟩

/-- C5.  `updateRoot` installs a fresh inner page as the new root holding
exactly one separator key, with child 0 the old root and child 1 the
newly allocated sibling; its `level` is 1 precisely when the old root is
the remembered initial (leaf) root; and both the in-memory `rootPageNum`
and the meta page's `rootPageNo` are set to the new root id, so the two
agree afterwards. -/
theorem c5_updateRoot_fresh_root_and_meta_sync (s : BTState) (oldRootID : Int)
    (pushUp : PageKeyPair) (hold : oldRootID = s.rootPageNum)
    (hfresh : s.headerPageNum ≠ s.nextPage) :
    (∃ node : NonLeafNodeInt,
      (updateRoot s oldRootID pushUp).pages (updateRoot s oldRootID pushUp).rootPageNum =
        PageContent.inner node ∧
      node.keyArray 0 = pushUp.key ∧
      (∀ i, 0 < i → node.keyArray i = 0) ∧
      node.pageNoArray 0 = oldRootID ∧
      node.pageNoArray 1 = pushUp.pageNo ∧
      (∀ i, 2 ≤ i → node.pageNoArray i = 0) ∧
      node.level = (if s.initial = oldRootID then 1 else 0)) ∧
    (updateRoot s oldRootID pushUp).rootPageNum = s.nextPage ∧
    (metaAt (updateRoot s oldRootID pushUp)).rootPageNo =
      (updateRoot s oldRootID pushUp).rootPageNum := by
  have hpage : (updateRoot s oldRootID pushUp).pages
      (updateRoot s oldRootID pushUp).rootPageNum =
      PageContent.inner
        { level := if s.initial = s.rootPageNum then (1 : Int) else 0
          keyArray := upd emptyNonLeaf.keyArray 0 pushUp.key
          pageNoArray :=
            upd (upd emptyNonLeaf.pageNoArray 0 oldRootID) 1 pushUp.pageNo } := by
    show setPage _ s.nextPage _ s.nextPage = _
    rw [setPage_self]
  refine ⟨⟨_, hpage, ?_, ?_, ?_, ?_, ?_, ?_⟩, rfl, ?_⟩
  · show upd emptyNonLeaf.keyArray 0 pushUp.key 0 = pushUp.key
    exact upd_self _ _ _
  · intro i hi
    show upd emptyNonLeaf.keyArray 0 pushUp.key i = 0
    rw [upd_ne _ _ _ _ (by omega)]
    rfl
  · show upd (upd emptyNonLeaf.pageNoArray 0 oldRootID) 1 pushUp.pageNo 0 = oldRootID
    rw [upd_ne _ _ _ _ (by omega), upd_self]
  · show upd (upd emptyNonLeaf.pageNoArray 0 oldRootID) 1 pushUp.pageNo 1 = pushUp.pageNo
    exact upd_self _ _ _
  · intro i hi
    show upd (upd emptyNonLeaf.pageNoArray 0 oldRootID) 1 pushUp.pageNo i = 0
    rw [upd_ne _ _ _ _ (by omega), upd_ne _ _ _ _ (by omega)]
    rfl
  · show (if s.initial = s.rootPageNum then (1 : Int) else 0) = _
    rw [hold]
  · show (metaAt _).rootPageNo = s.nextPage
    unfold metaAt
    show (match setPage (setPage _ s.headerPageNum _) s.nextPage _ s.headerPageNum with
      | PageContent.metaPage m => m
      | _ => _).rootPageNo = s.nextPage
    rw [setPage_ne _ _ _ _ hfresh, setPage_self]

/-- C5 witness for `c5_updateRoot_fresh_root_and_meta_sync`: the concrete
pre-split state `c5State` (root 2 = initial, header 1, next free page 4)
discharges both hypotheses. -/
theorem c5_updateRoot_fresh_root_and_meta_sync_witness :
    (2 : Int) = c5State.rootPageNum ∧ c5State.headerPageNum ≠ c5State.nextPage ∧
    ((∃ node : NonLeafNodeInt,
      (updateRoot c5State 2 ⟨3, 42⟩).pages (updateRoot c5State 2 ⟨3, 42⟩).rootPageNum =
        PageContent.inner node ∧
      node.keyArray 0 = (42 : Int) ∧
      (∀ i, 0 < i → node.keyArray i = 0) ∧
      node.pageNoArray 0 = (2 : Int) ∧
      node.pageNoArray 1 = (3 : Int) ∧
      (∀ i, 2 ≤ i → node.pageNoArray i = 0) ∧
      node.level = (if c5State.initial = (2 : Int) then 1 else 0)) ∧
    (updateRoot c5State 2 ⟨3, 42⟩).rootPageNum = c5State.nextPage ∧
    (metaAt (updateRoot c5State 2 ⟨3, 42⟩)).rootPageNo =
      (updateRoot c5State 2 ⟨3, 42⟩).rootPageNum) :=
  ⟨by decide, by decide,
    c5_updateRoot_fresh_root_and_meta_sync c5State 2 ⟨3, 42⟩ (by decide) (by decide)⟩

lemma scanDescend_res (N : Nat) (lowVal : Int) :
    ∀ (fuel : Nat) (s : BTState),
      (scanDescend N lowVal fuel s).1 = StartScanRes.ok ∨
      (scanDescend N lowVal fuel s).1 = StartScanRes.stuck := by
  intro fuel
  induction fuel with
  | zero => intro s; right; rfl
  | succ fuel ih =>
    intro s
    unfold scanDescend
    split
    · dsimp only
      split
      · left; rfl
      · exact ih _
    · right; rfl

lemma scanLeafRow_done_res (L : Nat) (lowOp highOp : Operator)
    (lowVal highVal : Int) (cur : LeafNodeInt) :
    ∀ (c i : Nat) (s : BTState) (r : StartScanRes) (s1 : BTState),
      scanLeafRow L lowOp highOp lowVal highVal cur i c s = RowOut.done r s1 →
      r = StartScanRes.ok ∨ r = StartScanRes.noSuchKey ∨ r = StartScanRes.stuck := by
  intro c
  induction c with
  | zero =>
    intro i s r s1 h
    injection h with h1 h2
    right; right; exact h1.symm
  | succ c ih =>
    intro i s r s1 h
    unfold scanLeafRow at h
    split at h
    · injection h with h1 h2; left; exact h1.symm
    · split at h
      · injection h with h1 h2; right; left; exact h1.symm
      · split at h
        · split at h
          · injection h with h1 h2; right; left; exact h1.symm
          · exact RowOut.noConfusion h
        · exact ih _ _ _ _ h

lemma scanLeafFind_res (L : Nat) (lowOp highOp : Operator) (lowVal highVal : Int) :
    ∀ (fuel : Nat) (s : BTState),
      (scanLeafFind L lowOp highOp lowVal highVal fuel s).1 = StartScanRes.ok ∨
      (scanLeafFind L lowOp highOp lowVal highVal fuel s).1 = StartScanRes.noSuchKey ∨
      (scanLeafFind L lowOp highOp lowVal highVal fuel s).1 = StartScanRes.stuck := by
  intro fuel
  induction fuel with
  | zero => intro s; right; right; rfl
  | succ fuel ih =>
    intro s
    unfold scanLeafFind
    split
    · split
      · right; left; rfl
      · split
        · rename_i r s1 heq
          rcases scanLeafRow_done_res L lowOp highOp lowVal highVal _ _ _ _ _ _ heq with
            h | h | h
          · left; rw [h]
          · right; left; rw [h]
          · right; right; rw [h]
        · exact ih _
    · right; right; rfl

lemma startScanSeek_res (L N : Nat) (fuel : Nat) (lowVal : Int) (lowOp : Operator)
    (highVal : Int) (highOp : Operator) (s3 : BTState) :
    (startScanSeek L N fuel lowVal lowOp highVal highOp s3).1 = StartScanRes.ok ∨
    (startScanSeek L N fuel lowVal lowOp highVal highOp s3).1 = StartScanRes.noSuchKey ∨
    (startScanSeek L N fuel lowVal lowOp highVal highOp s3).1 = StartScanRes.stuck := by
  unfold startScanSeek
  rcases hd : (if s3.initial ≠ s3.currentPageNum then scanDescend N lowVal fuel s3
      else (StartScanRes.ok, s3)) with ⟨r1, s4⟩
  have hr1 : r1 = StartScanRes.ok ∨ r1 = StartScanRes.stuck := by
    by_cases hi : s3.initial ≠ s3.currentPageNum
    · rw [if_pos hi] at hd
      have h2 := scanDescend_res N lowVal fuel s3
      rw [hd] at h2
      exact h2
    · rw [if_neg hi] at hd
      injection hd with h1 h2
      exact Or.inl h1.symm
  rcases hr1 with h | h <;> subst h
  · exact scanLeafFind_res L lowOp highOp lowVal highVal fuel s4
  · right; right; rfl

lemma startScanStore_pins (s : BTState) (lv hv : Int) (lo ho : Operator) :
    (startScanStore s lv hv lo ho).pins =
      s.pins - (if s.scanExecuting = true then 1 else 0) := by
  cases hx : s.scanExecuting
  · simp [startScanStore, hx]
  · simp [startScanStore, endScanState, hx]

lemma startScanStore_scanExecuting (s : BTState) (lv hv : Int) (lo ho : Operator) :
    (startScanStore s lv hv lo ho).scanExecuting = false := by
  cases hx : s.scanExecuting
  · simp [startScanStore, hx]
  · simp [startScanStore, endScanState, hx]

/-- C8.  `startScan` raises `BadOpcodes` exactly when the low operator is
not in `{GT, GTE}` or the high operator is not in `{LT, LTE}`; with valid
operators it raises `BadScanRange` exactly when `low > high`; and on
either failure no `NoSuchKeyFound` is raised and no tree page is pinned
(the pin ledger only reflects the teardown of a previously active scan,
so no descent happened). -/
theorem c8_startScan_validation (L N fuel : Nat) (s : BTState)
    (lowVal highVal : Int) (lowOp highOp : Operator) :
    ((startScan L N fuel s lowVal lowOp highVal highOp).1 = StartScanRes.badOpcodes ↔
      ¬ validOps lowOp highOp) ∧
    (validOps lowOp highOp →
      ((startScan L N fuel s lowVal lowOp highVal highOp).1 = StartScanRes.badScanRange ↔
        lowVal > highVal)) ∧
    ((startScan L N fuel s lowVal lowOp highVal highOp).1 = StartScanRes.badOpcodes ∨
        (startScan L N fuel s lowVal lowOp highVal highOp).1 = StartScanRes.badScanRange →
      (startScan L N fuel s lowVal lowOp highVal highOp).1 ≠ StartScanRes.noSuchKey ∧
      (startScan L N fuel s lowVal lowOp highVal highOp).2.pins =
        s.pins - (if s.scanExecuting = true then 1 else 0)) := by
  by_cases hv : ((lowOp = Operator.GT ∨ lowOp = Operator.GTE) ∧
      (highOp = Operator.LT ∨ highOp = Operator.LTE))
  · by_cases hr : lowVal > highVal
    · have hres : startScan L N fuel s lowVal lowOp highVal highOp =
          (StartScanRes.badScanRange, startScanStore s lowVal highVal lowOp highOp) := by
        unfold startScan
        rw [if_neg (not_not_intro hv), if_pos hr]
      rw [hres]
      refine ⟨⟨fun h => StartScanRes.noConfusion h, fun h => absurd hv h⟩,
        fun _ => ⟨fun _ => hr, fun _ => rfl⟩,
        fun _ => ⟨fun h => StartScanRes.noConfusion h, startScanStore_pins s _ _ _ _⟩⟩
    · have hres : startScan L N fuel s lowVal lowOp highVal highOp =
          startScanSeek L N fuel lowVal lowOp highVal highOp
            { startScanStore s lowVal highVal lowOp highOp with
              currentPageNum := (startScanStore s lowVal highVal lowOp highOp).rootPageNum
              pins := (startScanStore s lowVal highVal lowOp highOp).pins + 1 } := by
        unfold startScan
        rw [if_neg (not_not_intro hv), if_neg hr]
      have hseek := startScanSeek_res L N fuel lowVal lowOp highVal highOp
        { startScanStore s lowVal highVal lowOp highOp with
          currentPageNum := (startScanStore s lowVal highVal lowOp highOp).rootPageNum
          pins := (startScanStore s lowVal highVal lowOp highOp).pins + 1 }
      rw [hres]
      refine ⟨⟨?_, fun h => absurd hv h⟩, fun _ => ⟨?_, fun hgt => absurd hgt hr⟩, ?_⟩
      · intro h
        rcases hseek with h1 | h1 | h1 <;> rw [h1] at h <;> exact StartScanRes.noConfusion h
      · intro h
        rcases hseek with h1 | h1 | h1 <;> rw [h1] at h <;> exact StartScanRes.noConfusion h
      · intro h
        exfalso
        rcases hseek with h1 | h1 | h1 <;> rcases h with h2 | h2 <;> rw [h1] at h2 <;>
          exact StartScanRes.noConfusion h2
  · have hres : startScan L N fuel s lowVal lowOp highVal highOp =
        (StartScanRes.badOpcodes, startScanStore s lowVal highVal lowOp highOp) := by
      unfold startScan
      rw [if_pos hv]
    rw [hres]
    refine ⟨⟨fun _ => fun hvo => hv hvo, fun _ => rfl⟩,
      fun hvo => absurd hvo hv,
      fun _ => ⟨fun h => StartScanRes.noConfusion h, startScanStore_pins s _ _ _ _⟩⟩

/-- C8 witness for `c8_startScan_validation`, instantiated at a call with
an invalid low operator. -/
theorem c8_startScan_validation_witness :
    ((startScan 4 4 5 newIndexState 0 Operator.LT 10 Operator.LTE).1 =
        StartScanRes.badOpcodes ↔ ¬ validOps Operator.LT Operator.LTE) ∧
    (validOps Operator.LT Operator.LTE →
      ((startScan 4 4 5 newIndexState 0 Operator.LT 10 Operator.LTE).1 =
          StartScanRes.badScanRange ↔ (0 : Int) > 10)) ∧
    ((startScan 4 4 5 newIndexState 0 Operator.LT 10 Operator.LTE).1 =
        StartScanRes.badOpcodes ∨
      (startScan 4 4 5 newIndexState 0 Operator.LT 10 Operator.LTE).1 =
        StartScanRes.badScanRange →
      (startScan 4 4 5 newIndexState 0 Operator.LT 10 Operator.LTE).1 ≠
        StartScanRes.noSuchKey ∧
      (startScan 4 4 5 newIndexState 0 Operator.LT 10 Operator.LTE).2.pins =
        newIndexState.pins - (if newIndexState.scanExecuting = true then 1 else 0)) :=
  c8_startScan_validation 4 4 5 newIndexState 0 10 Operator.LT Operator.LTE

/-- C10.  A `startScan` that fails validation (`BadOpcodes` or
`BadScanRange`) has already overwritten the stored predicate fields with
the new arguments and already terminated any previously active scan (its
leaf unpinned, `scanExecuting` cleared, `currentPageNum`/`nextEntry`
reset to -1): the error exits are not atomic with respect to scan
state. -/
theorem c10_startScan_error_exit_state (L N fuel : Nat) (s : BTState)
    (lowVal highVal : Int) (lowOp highOp : Operator)
    (h : (startScan L N fuel s lowVal lowOp highVal highOp).1 = StartScanRes.badOpcodes ∨
      (startScan L N fuel s lowVal lowOp highVal highOp).1 = StartScanRes.badScanRange) :
    (startScan L N fuel s lowVal lowOp highVal highOp).2.lowValInt = lowVal ∧
    (startScan L N fuel s lowVal lowOp highVal highOp).2.highValInt = highVal ∧
    (startScan L N fuel s lowVal lowOp highVal highOp).2.lowOp = lowOp ∧
    (startScan L N fuel s lowVal lowOp highVal highOp).2.highOp = highOp ∧
    (startScan L N fuel s lowVal lowOp highVal highOp).2.scanExecuting = false ∧
    (s.scanExecuting = true →
      (startScan L N fuel s lowVal lowOp highVal highOp).2.pins = s.pins - 1 ∧
      (startScan L N fuel s lowVal lowOp highVal highOp).2.currentPageNum = -1 ∧
      (startScan L N fuel s lowVal lowOp highVal highOp).2.nextEntry = -1) := by
  have hcases : startScan L N fuel s lowVal lowOp highVal highOp =
      (StartScanRes.badOpcodes, startScanStore s lowVal highVal lowOp highOp) ∨
      startScan L N fuel s lowVal lowOp highVal highOp =
      (StartScanRes.badScanRange, startScanStore s lowVal highVal lowOp highOp) := by
    unfold startScan
    split
    · left; rfl
    · split
      · right; rfl
      · rename_i hnv hnr
        exfalso
        unfold startScan at h
        rw [if_neg hnv, if_neg hnr] at h
        rcases startScanSeek_res L N fuel lowVal lowOp highVal highOp _ with h1 | h1 | h1 <;>
          rcases h with h2 | h2 <;> rw [h1] at h2 <;> exact StartScanRes.noConfusion h2
  have hstore : ∀ hx : s.scanExecuting = true,
      (startScanStore s lowVal highVal lowOp highOp).pins = s.pins - 1 ∧
      (startScanStore s lowVal highVal lowOp highOp).currentPageNum = -1 ∧
      (startScanStore s lowVal highVal lowOp highOp).nextEntry = -1 := by
    intro hx
    refine ⟨?_, ?_, ?_⟩ <;> simp [startScanStore, endScanState, hx]
  rcases hcases with hc | hc <;> rw [hc] <;>
    exact ⟨rfl, rfl, rfl, rfl, startScanStore_scanExecuting s _ _ _ _, hstore⟩

/-- C10 witness for `c10_startScan_error_exit_state`: a `startScan` with
an invalid low operator on the active-scan state `c7State`. -/
theorem c10_startScan_error_exit_state_witness :
    ((startScan 4 4 5 c7State 7 Operator.LT 9 Operator.LTE).1 =
        StartScanRes.badOpcodes ∨
      (startScan 4 4 5 c7State 7 Operator.LT 9 Operator.LTE).1 =
        StartScanRes.badScanRange) ∧
    ((startScan 4 4 5 c7State 7 Operator.LT 9 Operator.LTE).2.lowValInt = 7 ∧
      (startScan 4 4 5 c7State 7 Operator.LT 9 Operator.LTE).2.highValInt = 9 ∧
      (startScan 4 4 5 c7State 7 Operator.LT 9 Operator.LTE).2.lowOp = Operator.LT ∧
      (startScan 4 4 5 c7State 7 Operator.LT 9 Operator.LTE).2.highOp = Operator.LTE ∧
      (startScan 4 4 5 c7State 7 Operator.LT 9 Operator.LTE).2.scanExecuting = false ∧
      (c7State.scanExecuting = true →
        (startScan 4 4 5 c7State 7 Operator.LT 9 Operator.LTE).2.pins = c7State.pins - 1 ∧
        (startScan 4 4 5 c7State 7 Operator.LT 9 Operator.LTE).2.currentPageNum = -1 ∧
        (startScan 4 4 5 c7State 7 Operator.LT 9 Operator.LTE).2.nextEntry = -1)) :=
  ⟨by decide, c10_startScan_error_exit_state 4 4 5 c7State 7 9 Operator.LT Operator.LTE
    (by decide)⟩

lemma findTop_le (l : LeafNodeInt) : ∀ t : Nat, findTop l t ≤ t := by
  intro t
  induction t with
  | zero => simp [findTop]
  | succ t ih =>
    unfold findTop
    split
    · exact le_refl _
    · exact le_trans ih (Nat.le_succ t)

lemma findTop_above (l : LeafNodeInt) :
    ∀ t j : Nat, findTop l t ≤ j → j < t → ¬ populated l j := by
  intro t
  induction t with
  | zero => intro j h1 h2; intro _; omega
  | succ t ih =>
    intro j h1 h2
    unfold findTop at h1
    by_cases hp : (l.ridArray t).page_number ≠ 0
    · rw [if_pos hp] at h1
      intro _; omega
    · rw [if_neg hp] at h1
      by_cases hj : j = t
      · subst hj; exact fun hc => hp hc
      · exact ih j h1 (by omega)

lemma findTop_pop (l : LeafNodeInt) :
    ∀ t : Nat, 0 < findTop l t → populated l (findTop l t - 1) := by
  intro t
  induction t with
  | zero => intro h; simp [findTop] at h
  | succ t ih =>
    intro h
    unfold findTop at h ⊢
    by_cases hp : (l.ridArray t).page_number ≠ 0
    · rw [if_pos hp]
      exact hp
    · rw [if_neg hp] at h ⊢
      exact ih h

lemma findTop_lt_of_top_empty (l : LeafNodeInt) (t : Nat)
    (h : ¬ populated l t) : findTop l (t + 1) ≤ t := by
  unfold findTop
  unfold populated at h
  rw [if_neg h]
  exact findTop_le l t

lemma pop_down (L : Nat) (l : LeafNodeInt) (hinv : leafInv L l) :
    ∀ m : Nat, m < L → populated l m → ∀ j : Nat, j ≤ m → populated l j := by
  intro m
  induction m with
  | zero =>
    intro _ h j hj
    have : j = 0 := by omega
    subst this; exact h
  | succ m ih =>
    intro hm h j hj
    by_cases hjm : j = m + 1
    · subst hjm; exact h
    · exact ih (by omega) (hinv.1 m hm h) j (by omega)

lemma notPop_all (L : Nat) (l : LeafNodeInt) (hinv : leafInv L l)
    (h0 : ¬ populated l 0) : ∀ j : Nat, j < L → ¬ populated l j := by
  intro j
  induction j with
  | zero => intro _; exact h0
  | succ j ih =>
    intro hj hp
    exact ih (by omega) (hinv.1 j hj hp)

lemma leafShift_spec (k : Int) : ∀ (t : Nat) (l : LeafNodeInt),
    (leafShift k l t).2 ≤ t ∧
    (∀ j, j ≤ (leafShift k l t).2 ∨ t < j →
      (leafShift k l t).1.keyArray j = l.keyArray j ∧
      (leafShift k l t).1.ridArray j = l.ridArray j) ∧
    (∀ j, (leafShift k l t).2 ≤ j → j < t →
      (leafShift k l t).1.keyArray (j + 1) = l.keyArray j ∧
      (leafShift k l t).1.ridArray (j + 1) = l.ridArray j) ∧
    (∀ j, (leafShift k l t).2 ≤ j → j < t → l.keyArray j > k) ∧
    (0 < (leafShift k l t).2 → ¬ l.keyArray ((leafShift k l t).2 - 1) > k) ∧
    (leafShift k l t).1.rightSibPageNo = l.rightSibPageNo := by
  intro t
  induction t with
  | zero =>
    intro l
    refine ⟨le_refl _, fun j _ => ⟨rfl, rfl⟩, fun j h1 h2 => absurd h2 (by omega),
      fun j h1 h2 => absurd h2 (by omega), fun h => absurd h (by simp [leafShift]),
      rfl⟩
  | succ t ih =>
    intro l
    by_cases hgt : l.keyArray t > k
    · have hstep : leafShift k l (t + 1) =
          leafShift k
            { l with
              keyArray := upd l.keyArray (t + 1) (l.keyArray t)
              ridArray := upd l.ridArray (t + 1) (l.ridArray t) } t := by
        rw [leafShift]
        rw [if_pos hgt]
      rw [hstep]
      obtain ⟨ih1, ih2, ih3, ih4, ih5, ih6⟩ :=
        ih { l with
               keyArray := upd l.keyArray (t + 1) (l.keyArray t)
               ridArray := upd l.ridArray (t + 1) (l.ridArray t) }
      refine ⟨by omega, ?_, ?_, ?_, ?_, ?_⟩
      · intro j hj
        have hj2 : j ≤ (leafShift k
            { l with
              keyArray := upd l.keyArray (t + 1) (l.keyArray t)
              ridArray := upd l.ridArray (t + 1) (l.ridArray t) } t).2 ∨ t < j := by
          rcases hj with hj | hj
          · exact Or.inl hj
          · exact Or.inr (by omega)
        obtain ⟨h1, h2⟩ := ih2 j hj2
        have hne : j ≠ t + 1 := by
          rcases hj with hj | hj
          · omega
          · omega
        rw [h1, h2]
        exact ⟨upd_ne _ _ _ _ hne, upd_ne _ _ _ _ hne⟩
      · intro j hj1 hj2
        by_cases hjt : j = t
        · obtain ⟨h1, h2⟩ := ih2 (t + 1) (Or.inr (by omega))
          rw [hjt, h1, h2]
          exact ⟨upd_self _ _ _, upd_self _ _ _⟩
        · obtain ⟨h1, h2⟩ := ih3 j hj1 (by omega)
          rw [h1, h2]
          have hne : j ≠ t + 1 := by omega
          exact ⟨upd_ne _ _ _ _ hne, upd_ne _ _ _ _ hne⟩
      · intro j hj1 hj2
        by_cases hjt : j = t
        · rw [hjt]; exact hgt
        · have h4 : upd l.keyArray (t + 1) (l.keyArray t) j > k := ih4 j hj1 (by omega)
          rwa [upd_ne _ _ _ _ (show j ≠ t + 1 by omega)] at h4
      · intro hpos
        have h5 : ¬ upd l.keyArray (t + 1) (l.keyArray t)
            ((leafShift k
              { l with
                keyArray := upd l.keyArray (t + 1) (l.keyArray t)
                ridArray := upd l.ridArray (t + 1) (l.ridArray t) } t).2 - 1) > k :=
          ih5 hpos
        rwa [upd_ne _ _ _ _ (by omega)] at h5
      · exact ih6
    · have hstep : leafShift k l (t + 1) = (l, t + 1) := by
        rw [leafShift]
        rw [if_neg hgt]
      rw [hstep]
      refine ⟨le_refl _, fun j _ => ⟨rfl, rfl⟩, fun j h1 h2 => absurd h2 (by omega),
        fun j h1 h2 => absurd h2 (by omega), fun _ => ?_, rfl⟩
      simpa using hgt

lemma insertNodeLeaf_rightSib (L : Nat) (node : LeafNodeInt) (e : RIDKeyPair) :
    (insertNodeLeaf L node e).rightSibPageNo = node.rightSibPageNo := by
  unfold insertNodeLeaf
  split
  · exact (leafShift_spec e.key (findTop node L) node).2.2.2.2.2
  · rfl

lemma insertNodeLeaf_pop0 (L : Nat) (node : LeafNodeInt) (e : RIDKeyPair)
    (he : e.rid.page_number ≠ 0) : populated (insertNodeLeaf L node e) 0 := by
  unfold insertNodeLeaf
  split
  · rename_i h0
    show (upd (leafShift e.key node (findTop node L)).1.ridArray
      (leafShift e.key node (findTop node L)).2 e.rid 0).page_number ≠ 0
    by_cases hp : (leafShift e.key node (findTop node L)).2 = 0
    · rw [hp, upd_self]
      exact he
    · rw [upd_ne _ _ _ _ (by omega)]
      rw [((leafShift_spec e.key (findTop node L) node).2.1 0 (Or.inl (by omega))).2]
      exact h0
  · show (upd node.ridArray 0 e.rid 0).page_number ≠ 0
    rw [upd_self]
    exact he

lemma insertNodeLeaf_inv (L : Nat) (node : LeafNodeInt) (e : RIDKeyPair)
    (hL : 1 ≤ L) (hinv : leafInv L node) (hnf : ¬ populated node (L - 1))
    (he : e.rid.page_number ≠ 0) : leafInv L (insertNodeLeaf L node e) := by
  unfold insertNodeLeaf
  by_cases h0 : (node.ridArray 0).page_number ≠ 0
  · rw [if_pos h0]
    obtain ⟨hs1, hs2, hs3, hs4, hs5, hs6⟩ :=
      leafShift_spec e.key (findTop node L) node
    have htle : findTop node L ≤ L - 1 := by
      rw [show L = (L - 1) + 1 from by omega]
      rw [show (L - 1) + 1 - 1 = L - 1 from by omega]
      exact findTop_lt_of_top_empty node (L - 1) hnf
    have ht1 : 1 ≤ findTop node L := by
      by_contra hc
      exact findTop_above node L 0 (by omega) (by omega) h0
    have hptop : populated node (findTop node L - 1) :=
      findTop_pop node L (by omega)
    have hbelow : ∀ j, j < findTop node L → populated node j := fun j hj =>
      pop_down L node hinv (findTop node L - 1) (by omega) hptop j (by omega)
    have habove : ∀ j, findTop node L ≤ j → j < L → ¬ populated node j :=
      fun j h1 h2 => findTop_above node L j h1 (by omega)
    -- slot contents of the final node
    have kA : ∀ j, j < (leafShift e.key node (findTop node L)).2 →
        upd (leafShift e.key node (findTop node L)).1.keyArray
          (leafShift e.key node (findTop node L)).2 e.key j = node.keyArray j := by
      intro j hj
      rw [upd_ne _ _ _ _ (by omega)]
      exact (hs2 j (Or.inl (by omega))).1
    have rA : ∀ j, j < (leafShift e.key node (findTop node L)).2 →
        upd (leafShift e.key node (findTop node L)).1.ridArray
          (leafShift e.key node (findTop node L)).2 e.rid j = node.ridArray j := by
      intro j hj
      rw [upd_ne _ _ _ _ (by omega)]
      exact (hs2 j (Or.inl (by omega))).2
    have kB : upd (leafShift e.key node (findTop node L)).1.keyArray
        (leafShift e.key node (findTop node L)).2 e.key
        (leafShift e.key node (findTop node L)).2 = e.key := upd_self _ _ _
    have rB : upd (leafShift e.key node (findTop node L)).1.ridArray
        (leafShift e.key node (findTop node L)).2 e.rid
        (leafShift e.key node (findTop node L)).2 = e.rid := upd_self _ _ _
    have kC : ∀ j, (leafShift e.key node (findTop node L)).2 < j →
        j ≤ findTop node L →
        upd (leafShift e.key node (findTop node L)).1.keyArray
          (leafShift e.key node (findTop node L)).2 e.key j = node.keyArray (j - 1) := by
      intro j hj1 hj2
      rw [upd_ne _ _ _ _ (by omega)]
      have := (hs3 (j - 1) (by omega) (by omega)).1
      rw [show j - 1 + 1 = j from by omega] at this
      exact this
    have rC : ∀ j, (leafShift e.key node (findTop node L)).2 < j →
        j ≤ findTop node L →
        upd (leafShift e.key node (findTop node L)).1.ridArray
          (leafShift e.key node (findTop node L)).2 e.rid j = node.ridArray (j - 1) := by
      intro j hj1 hj2
      rw [upd_ne _ _ _ _ (by omega)]
      have := (hs3 (j - 1) (by omega) (by omega)).2
      rw [show j - 1 + 1 = j from by omega] at this
      exact this
    have kD : ∀ j, findTop node L < j →
        upd (leafShift e.key node (findTop node L)).1.keyArray
          (leafShift e.key node (findTop node L)).2 e.key j = node.keyArray j := by
      intro j hj
      rw [upd_ne _ _ _ _ (by omega)]
      exact (hs2 j (Or.inr hj)).1
    have rD : ∀ j, findTop node L < j →
        upd (leafShift e.key node (findTop node L)).1.ridArray
          (leafShift e.key node (findTop node L)).2 e.rid j = node.ridArray j := by
      intro j hj
      rw [upd_ne _ _ _ _ (by omega)]
      exact (hs2 j (Or.inr hj)).2
    have popA : ∀ j, j ≤ findTop node L →
        (upd (leafShift e.key node (findTop node L)).1.ridArray
          (leafShift e.key node (findTop node L)).2 e.rid j).page_number ≠ 0 := by
      intro j hj
      rcases Nat.lt_trichotomy j (leafShift e.key node (findTop node L)).2 with
        hlt | heq | hgt2
      · rw [rA j hlt]
        exact hbelow j (by omega)
      · rw [heq, rB]
        exact he
      · rw [rC j hgt2 hj]
        exact hbelow (j - 1) (by omega)
    have popB : ∀ j, findTop node L < j → j < L →
        ¬ (upd (leafShift e.key node (findTop node L)).1.ridArray
          (leafShift e.key node (findTop node L)).2 e.rid j).page_number ≠ 0 := by
      intro j hj1 hj2
      rw [rD j hj1]
      exact habove j (by omega) hj2
    constructor
    · intro i hi hp
      by_cases hit : i + 1 ≤ findTop node L
      · exact popA i (by omega)
      · exact absurd hp (popB (i + 1) (by omega) hi)
    · intro i hi hp
      have hit : i + 1 ≤ findTop node L := by
        by_contra hc
        exact popB (i + 1) (by omega) hi hp
      show upd (leafShift e.key node (findTop node L)).1.keyArray
          (leafShift e.key node (findTop node L)).2 e.key i ≤
        upd (leafShift e.key node (findTop node L)).1.keyArray
          (leafShift e.key node (findTop node L)).2 e.key (i + 1)
      rcases Nat.lt_trichotomy (i + 1) (leafShift e.key node (findTop node L)).2 with
        hlt | heq | hgt2
      · rw [kA i (by omega), kA (i + 1) hlt]
        exact hinv.2 i hi (hbelow (i + 1) (by omega))
      · rw [kA i (by omega), heq, kB]
        have h5 := hs5 (by omega)
        rw [show (leafShift e.key node (findTop node L)).2 - 1 = i from by omega] at h5
        omega
      · by_cases hieq : i = (leafShift e.key node (findTop node L)).2
        · have h4 := hs4 i (by omega) (by omega)
          rw [kC (i + 1) (by omega) hit, show i + 1 - 1 = i from by omega, hieq, kB]
          rw [hieq] at h4
          omega
        · rw [kC i (by omega) (by omega), kC (i + 1) (by omega) hit,
            show i + 1 - 1 = i from by omega]
          have h6 := hinv.2 (i - 1) (by omega)
            (by rw [show i - 1 + 1 = i from by omega]; exact hbelow i (by omega))
          rw [show i - 1 + 1 = i from by omega] at h6
          exact h6
  · rw [if_neg h0]
    have hall : ∀ j, j < L → ¬ populated node j :=
      notPop_all L node hinv (fun hp => h0 hp)
    constructor
    · intro i hi hp
      exfalso
      have hp2 : (upd node.ridArray 0 e.rid (i + 1)).page_number ≠ 0 := hp
      rw [upd_ne _ _ _ _ (by omega)] at hp2
      exact hall (i + 1) hi hp2
    · intro i hi hp
      exfalso
      have hp2 : (upd node.ridArray 0 e.rid (i + 1)).page_number ≠ 0 := hp
      rw [upd_ne _ _ _ _ (by omega)] at hp2
      exact hall (i + 1) hi hp2

lemma moveLeafLoop_spec : ∀ (c i idx : Nat) (old nw : LeafNodeInt),
    (∀ j, j < i ∨ i + c ≤ j →
      (moveLeafLoop c i idx old nw).1.keyArray j = old.keyArray j ∧
      (moveLeafLoop c i idx old nw).1.ridArray j = old.ridArray j) ∧
    (∀ j, i ≤ j → j < i + c →
      (moveLeafLoop c i idx old nw).1.keyArray j = 0 ∧
      ((moveLeafLoop c i idx old nw).1.ridArray j).page_number = 0) ∧
    (∀ j, j < idx ∨ idx + c ≤ j →
      (moveLeafLoop c i idx old nw).2.keyArray j = nw.keyArray j ∧
      (moveLeafLoop c i idx old nw).2.ridArray j = nw.ridArray j) ∧
    (∀ j, j < c →
      (moveLeafLoop c i idx old nw).2.keyArray (idx + j) = old.keyArray (i + j) ∧
      (moveLeafLoop c i idx old nw).2.ridArray (idx + j) = old.ridArray (i + j)) ∧
    (moveLeafLoop c i idx old nw).1.rightSibPageNo = old.rightSibPageNo ∧
    (moveLeafLoop c i idx old nw).2.rightSibPageNo = nw.rightSibPageNo := by
  intro c
  induction c with
  | zero =>
    intro i idx old nw
    exact ⟨fun j _ => ⟨rfl, rfl⟩, fun j h1 h2 => absurd h2 (by omega),
      fun j _ => ⟨rfl, rfl⟩, fun j hj => absurd hj (by omega), rfl, rfl⟩
  | succ c ih =>
    intro i idx old nw
    have hstep : moveLeafLoop (c + 1) i idx old nw =
        moveLeafLoop c (i + 1) (idx + 1)
          { old with
            keyArray := upd old.keyArray i 0
            ridArray := upd old.ridArray i { old.ridArray i with page_number := 0 } }
          { nw with
            keyArray := upd nw.keyArray idx (old.keyArray i)
            ridArray := upd nw.ridArray idx (old.ridArray i) } := rfl
    rw [hstep]
    obtain ⟨ih1, ih2, ih3, ih4, ih5, ih6⟩ :=
      ih (i + 1) (idx + 1)
        { old with
          keyArray := upd old.keyArray i 0
          ridArray := upd old.ridArray i { old.ridArray i with page_number := 0 } }
        { nw with
          keyArray := upd nw.keyArray idx (old.keyArray i)
          ridArray := upd nw.ridArray idx (old.ridArray i) }
    refine ⟨?_, ?_, ?_, ?_, ?_, ?_⟩
    · intro j hj
      obtain ⟨h1, h2⟩ := ih1 j (by omega)
      rw [h1, h2]
      have hne : j ≠ i := by omega
      exact ⟨upd_ne _ _ _ _ hne, upd_ne _ _ _ _ hne⟩
    · intro j hj1 hj2
      by_cases hji : j = i
      · obtain ⟨h1, h2⟩ := ih1 j (by omega)
        rw [h1, h2, hji]
        refine ⟨?_, ?_⟩
        · show upd old.keyArray i 0 i = 0
          exact upd_self _ _ _
        · show (upd old.ridArray i { old.ridArray i with page_number := 0 } i).page_number = 0
          rw [upd_self]
      · exact ih2 j (by omega) (by omega)
    · intro j hj
      obtain ⟨h1, h2⟩ := ih3 j (by omega)
      rw [h1, h2]
      have hne : j ≠ idx := by omega
      exact ⟨upd_ne _ _ _ _ hne, upd_ne _ _ _ _ hne⟩
    · intro j hj
      rcases Nat.eq_zero_or_pos j with hj0 | hjpos
      · subst hj0
        simp only [Nat.add_zero]
        obtain ⟨h1, h2⟩ := ih3 idx (by omega)
        rw [h1, h2]
        refine ⟨?_, ?_⟩
        · show upd nw.keyArray idx (old.keyArray i) idx = old.keyArray i
          exact upd_self _ _ _
        · show upd nw.ridArray idx (old.ridArray i) idx = old.ridArray i
          exact upd_self _ _ _
      · obtain ⟨h1, h2⟩ := ih4 (j - 1) (by omega)
        rw [show (idx + 1) + (j - 1) = idx + j from by omega] at h1 h2
        rw [show (i + 1) + (j - 1) = i + j from by omega] at h1 h2
        rw [h1, h2]
        have hne : i + j ≠ i := by omega
        exact ⟨upd_ne _ _ _ _ hne, upd_ne _ _ _ _ hne⟩
    · exact ih5
    · exact ih6

lemma leafSplitMid_le (L : Nat) (hL : 3 ≤ L) (old : LeafNodeInt) (k : Int) :
    leafSplitMid L old k ≤ L - 2 := by
  unfold leafSplitMid
  split
  · rename_i h
    obtain ⟨h1, -⟩ := h
    omega
  · omega

lemma leafMoved_old_inv (L : Nat) (hL : 3 ≤ L) (old : LeafNodeInt)
    (hinv : leafInv L old) (hfull : ∀ i, i < L → populated old i) (k : Int) :
    leafInv L (leafMoved L old k).1 ∧
    ¬ populated (leafMoved L old k).1 (L - 1) := by
  have hmid : leafSplitMid L old k ≤ L - 2 := leafSplitMid_le L hL old k
  obtain ⟨m1, m2, m3, m4, m5, m6⟩ := moveLeafLoop_spec
    (L - (leafSplitMid L old k + 1)) (leafSplitMid L old k + 1) 0 old emptyLeaf
  refine ⟨⟨?_, ?_⟩, ?_⟩
  · intro i hi hp
    by_cases him : i + 1 ≤ leafSplitMid L old k
    · have h1 := (m1 i (Or.inl (by omega))).2
      show ((leafMoved L old k).1.ridArray i).page_number ≠ 0
      show ((moveLeafLoop (L - (leafSplitMid L old k + 1))
        (leafSplitMid L old k + 1) 0 old emptyLeaf).1.ridArray i).page_number ≠ 0
      rw [h1]
      exact hfull i (by omega)
    · exfalso
      exact hp (m2 (i + 1) (by omega) (by omega)).2
  · intro i hi hp
    have him : i + 1 ≤ leafSplitMid L old k := by
      by_contra hc
      exact hp (m2 (i + 1) (by omega) (by omega)).2
    have k1 := (m1 i (Or.inl (by omega))).1
    have k2 := (m1 (i + 1) (Or.inl (by omega))).1
    show (leafMoved L old k).1.keyArray i ≤ (leafMoved L old k).1.keyArray (i + 1)
    show (moveLeafLoop (L - (leafSplitMid L old k + 1))
        (leafSplitMid L old k + 1) 0 old emptyLeaf).1.keyArray i ≤
      (moveLeafLoop (L - (leafSplitMid L old k + 1))
        (leafSplitMid L old k + 1) 0 old emptyLeaf).1.keyArray (i + 1)
    rw [k1, k2]
    exact hinv.2 i hi (hfull (i + 1) (by omega))
  · intro hp
    exact hp (m2 (L - 1) (by omega) (by omega)).2

lemma leafMoved_new_inv (L : Nat) (hL : 3 ≤ L) (old : LeafNodeInt)
    (hinv : leafInv L old) (hfull : ∀ i, i < L → populated old i) (k : Int) :
    leafInv L (leafMoved L old k).2 ∧
    ¬ populated (leafMoved L old k).2 (L - 1) ∧
    (leafMoved L old k).2.ridArray 0 =
      old.ridArray (leafSplitMid L old k + 1) := by
  have hmid : leafSplitMid L old k ≤ L - 2 := leafSplitMid_le L hL old k
  obtain ⟨m1, m2, m3, m4, m5, m6⟩ := moveLeafLoop_spec
    (L - (leafSplitMid L old k + 1)) (leafSplitMid L old k + 1) 0 old emptyLeaf
  have hpop : ∀ j, j + 1 < L → populated (leafMoved L old k).2 (j + 1) →
      j + 1 < L - (leafSplitMid L old k + 1) := by
    intro j hj hp
    by_contra hc
    have h3 := (m3 (j + 1) (Or.inr (by omega))).2
    apply hp
    show ((moveLeafLoop (L - (leafSplitMid L old k + 1))
      (leafSplitMid L old k + 1) 0 old emptyLeaf).2.ridArray (j + 1)).page_number = 0
    rw [h3]
    rfl
  refine ⟨⟨?_, ?_⟩, ?_, ?_⟩
  · intro i hi hp
    have hic := hpop i hi hp
    have h4 := (m4 i (by omega)).2
    simp only [Nat.zero_add] at h4
    show ((moveLeafLoop (L - (leafSplitMid L old k + 1))
      (leafSplitMid L old k + 1) 0 old emptyLeaf).2.ridArray i).page_number ≠ 0
    rw [h4]
    exact hfull (leafSplitMid L old k + 1 + i) (by omega)
  · intro i hi hp
    have hic := hpop i hi hp
    have k1 := (m4 i (by omega)).1
    have k2 := (m4 (i + 1) (by omega)).1
    simp only [Nat.zero_add] at k1 k2
    show (moveLeafLoop (L - (leafSplitMid L old k + 1))
        (leafSplitMid L old k + 1) 0 old emptyLeaf).2.keyArray i ≤
      (moveLeafLoop (L - (leafSplitMid L old k + 1))
        (leafSplitMid L old k + 1) 0 old emptyLeaf).2.keyArray (i + 1)
    rw [k1, k2]
    have h6 := hinv.2 (leafSplitMid L old k + 1 + i) (by omega)
      (hfull (leafSplitMid L old k + 1 + i + 1) (by omega))
    rw [show leafSplitMid L old k + 1 + (i + 1) =
      leafSplitMid L old k + 1 + i + 1 from by omega]
    exact h6
  · intro hp
    apply hp
    show ((moveLeafLoop (L - (leafSplitMid L old k + 1))
      (leafSplitMid L old k + 1) 0 old emptyLeaf).2.ridArray (L - 1)).page_number = 0
    rw [(m3 (L - 1) (Or.inr (by omega))).2]
    rfl
  · have h4 := (m4 0 (by omega)).2
    simp only [Nat.add_zero, Nat.zero_add] at h4
    exact h4

/-- C4.  Splitting a full leaf: the new leaf's right-sibling pointer
takes the old leaf's former right-sibling pointer, the old leaf's
right-sibling pointer becomes the newly allocated page id, and the pair
propagated upward is `(new.keys[0], new page id)` as a copy-up — the
leftmost slot of the new leaf is populated, so that key is still present
in the new leaf after propagation. -/
theorem c4_splitLeafNode_siblings_and_copy_up (L : Nat) (hL : 3 ≤ L)
    (old : LeafNodeInt) (hfull : ∀ i, i < L → populated old i)
    (ins : RIDKeyPair) (hrid : ins.rid.page_number ≠ 0) (newPageID : Int) :
    (splitLeafNodeCore L old newPageID ins).2.1.rightSibPageNo = old.rightSibPageNo ∧
    (splitLeafNodeCore L old newPageID ins).1.rightSibPageNo = newPageID ∧
    (splitLeafNodeCore L old newPageID ins).2.2 =
      ⟨newPageID, (splitLeafNodeCore L old newPageID ins).2.1.keyArray 0⟩ ∧
    populated (splitLeafNodeCore L old newPageID ins).2.1 0 := by
  have hmid : leafSplitMid L old ins.key ≤ L - 2 := leafSplitMid_le L hL old ins.key
  obtain ⟨m1, m2, m3, m4, m5, m6⟩ := moveLeafLoop_spec
    (L - (leafSplitMid L old ins.key + 1)) (leafSplitMid L old ins.key + 1) 0
    old emptyLeaf
  refine ⟨?_, rfl, rfl, ?_⟩
  · unfold splitLeafNodeCore
    dsimp only
    split
    · show (insertNodeLeaf L (leafMoved L old ins.key).1 ins).rightSibPageNo =
        old.rightSibPageNo
      rw [insertNodeLeaf_rightSib]
      exact m5
    · show (leafMoved L old ins.key).1.rightSibPageNo = old.rightSibPageNo
      exact m5
  · unfold splitLeafNodeCore
    dsimp only
    split
    · show ((leafMoved L old ins.key).2.ridArray 0).page_number ≠ 0
      have h4 := (m4 0 (by omega)).2
      simp only [Nat.add_zero, Nat.zero_add] at h4
      show ((moveLeafLoop (L - (leafSplitMid L old ins.key + 1))
        (leafSplitMid L old ins.key + 1) 0 old emptyLeaf).2.ridArray 0).page_number ≠ 0
      rw [h4]
      exact hfull (leafSplitMid L old ins.key + 1) (by omega)
    · show populated (insertNodeLeaf L (leafMoved L old ins.key).2 ins) 0
      exact insertNodeLeaf_pop0 L _ ins hrid

/-- C4 witness for `c4_splitLeafNode_siblings_and_copy_up`: the concrete
full occupancy-4 leaf `c4Old` (keys 1,3,5,7, right sibling 55) split by
inserting key 4 into new page 77. -/
theorem c4_splitLeafNode_siblings_and_copy_up_witness :
    (3 ≤ 4 ∧ (∀ i, i < 4 → populated c4Old i) ∧
      ((⟨9, 1⟩ : RecordId).page_number ≠ 0)) ∧
    ((splitLeafNodeCore 4 c4Old 77 ⟨⟨9, 1⟩, 4⟩).2.1.rightSibPageNo =
        c4Old.rightSibPageNo ∧
      (splitLeafNodeCore 4 c4Old 77 ⟨⟨9, 1⟩, 4⟩).1.rightSibPageNo = 77 ∧
      (splitLeafNodeCore 4 c4Old 77 ⟨⟨9, 1⟩, 4⟩).2.2 =
        ⟨77, (splitLeafNodeCore 4 c4Old 77 ⟨⟨9, 1⟩, 4⟩).2.1.keyArray 0⟩ ∧
      populated (splitLeafNodeCore 4 c4Old 77 ⟨⟨9, 1⟩, 4⟩).2.1 0) :=
  ⟨⟨by omega, by decide, by decide⟩,
    c4_splitLeafNode_siblings_and_copy_up 4 (by omega) c4Old (by decide)
      ⟨⟨9, 1⟩, 4⟩ (by decide) 77⟩

lemma splitLeafNodeCore_inv (L : Nat) (hL : 3 ≤ L) (old : LeafNodeInt)
    (hinv : leafInv L old) (hfull : ∀ i, i < L → populated old i)
    (ins : RIDKeyPair) (he : ins.rid.page_number ≠ 0) (newPageID : Int) :
    leafInv L (splitLeafNodeCore L old newPageID ins).1 ∧
    leafInv L (splitLeafNodeCore L old newPageID ins).2.1 := by
  obtain ⟨ho1, ho2⟩ := leafMoved_old_inv L hL old hinv hfull ins.key
  obtain ⟨hn1, hn2, hn3⟩ := leafMoved_new_inv L hL old hinv hfull ins.key
  unfold splitLeafNodeCore
  dsimp only
  split
  · exact ⟨insertNodeLeaf_inv L _ ins (by omega) ho1 ho2 he, hn1⟩
  · exact ⟨ho1, insertNodeLeaf_inv L _ ins (by omega) hn1 hn2 he⟩

lemma leavesSortedP_set_leaf (L : Nat) (pg : Int → PageContent) (p : Int)
    (l : LeafNodeInt) (h : leavesSortedP L pg) (hl : leafInv L l) :
    leavesSortedP L (setPage pg p (PageContent.leaf l)) := by
  intro q l2 hq
  by_cases hqp : q = p
  · subst hqp
    rw [setPage_self] at hq
    cases hq
    exact hl
  · rw [setPage_ne _ _ _ _ hqp] at hq
    exact h q l2 hq

lemma leavesSortedP_set_other (L : Nat) (pg : Int → PageContent) (p : Int)
    (v : PageContent) (h : leavesSortedP L pg)
    (hv : ∀ l, v ≠ PageContent.leaf l) :
    leavesSortedP L (setPage pg p v) := by
  intro q l2 hq
  by_cases hqp : q = p
  · subst hqp
    rw [setPage_self] at hq
    exact absurd hq (hv l2)
  · rw [setPage_ne _ _ _ _ hqp] at hq
    exact h q l2 hq

lemma updateRoot_preserves (L : Nat) (s : BTState) (o : Int) (p : PageKeyPair)
    (h : leavesSortedP L s.pages) : leavesSortedP L (updateRoot s o p).pages := by
  unfold updateRoot
  dsimp only
  exact leavesSortedP_set_other _ _ _ _
    (leavesSortedP_set_other _ _ _ _ h (fun l hx => PageContent.noConfusion hx))
    (fun l hx => PageContent.noConfusion hx)

lemma splitLeafNode_preserves (L : Nat) (hL : 3 ≤ L) (s : BTState)
    (node : LeafNodeInt) (currP : Int) (ins : RIDKeyPair)
    (hinv : leafInv L node) (hfull : ∀ i, i < L → populated node i)
    (he : ins.rid.page_number ≠ 0) (hs : leavesSortedP L s.pages) :
    leavesSortedP L (splitLeafNode L s node currP ins).1.pages := by
  obtain ⟨h1, h2⟩ := splitLeafNodeCore_inv L hL node hinv hfull ins he s.nextPage
  unfold splitLeafNode
  dsimp only
  split
  · apply updateRoot_preserves
    exact leavesSortedP_set_leaf _ _ _ _
      (leavesSortedP_set_leaf _ _ _ _ hs h1) h2
  · exact leavesSortedP_set_leaf _ _ _ _
      (leavesSortedP_set_leaf _ _ _ _ hs h1) h2

lemma splitNonLeafNode_preserves (L N : Nat) (s : BTState)
    (node : NonLeafNodeInt) (currP : Int) (p : PageKeyPair)
    (hs : leavesSortedP L s.pages) :
    leavesSortedP L (splitNonLeafNode N s node currP p).1.pages := by
  unfold splitNonLeafNode
  dsimp only
  split
  · apply updateRoot_preserves
    exact leavesSortedP_set_other _ _ _ _
      (leavesSortedP_set_other _ _ _ _ hs (fun l hx => PageContent.noConfusion hx))
      (fun l hx => PageContent.noConfusion hx)
  · exact leavesSortedP_set_other _ _ _ _
      (leavesSortedP_set_other _ _ _ _ hs (fun l hx => PageContent.noConfusion hx))
      (fun l hx => PageContent.noConfusion hx)

lemma insertEntryHelper_preserves (L N : Nat) (hL : 3 ≤ L) :
    ∀ (fuel : Nat) (s : BTState) (entry : RIDKeyPair) (curr : Int)
      (isLeaf : Bool) (out : BTState × Option PageKeyPair),
      entry.rid.page_number ≠ 0 → leavesSortedP L s.pages →
      insertEntryHelper L N fuel s entry curr isLeaf = some out →
      leavesSortedP L out.1.pages := by
  intro fuel
  induction fuel with
  | zero =>
    intro s entry curr isLeaf out _ _ h
    exact Option.noConfusion h
  | succ fuel ih =>
    intro s entry curr isLeaf out he hs h
    unfold insertEntryHelper at h
    split at h
    · -- leaf side
      split at h
      · rename_i node heq
        split at h
        · rename_i hguard
          cases h
          exact leavesSortedP_set_leaf L s.pages curr _ hs
            (insertNodeLeaf_inv L node entry (by omega) (hs curr node heq)
              (fun hp => hp hguard) he)
        · rename_i hguard
          cases h
          have hinv : leafInv L node := hs curr node heq
          have hfull : ∀ i, i < L → populated node i := fun i hi =>
            pop_down L node hinv (L - 1) (by omega) hguard i (by omega)
          exact splitLeafNode_preserves L hL s node curr entry hinv hfull he hs
      · exact Option.noConfusion h
    · -- inner side
      split at h
      · rename_i node heq
        split at h
        · exact Option.noConfusion h
        · rename_i m hft
          split at h
          · exact Option.noConfusion h
          · rename_i s2 p hrec
            have hs2 : leavesSortedP L s2.pages :=
              ih { s with pins := s.pins + 1 } entry _ _ (s2, some p) he hs hrec
            split at h
            · cases h
              exact leavesSortedP_set_other L s2.pages curr _ hs2
                (fun l hx => PageContent.noConfusion hx)
            · cases h
              exact splitNonLeafNode_preserves L N s2 node curr p hs2
          · rename_i s2 hrec
            cases h
            exact ih { s with pins := s.pins + 1 } entry _ _ (s2, none) he hs hrec
      · exact Option.noConfusion h

/-- C6 (amended).  What the code actually maintains: after every
completed `insertEntry` of an entry with a real record id into a state
whose leaf pages are all well-formed (populated slots form a prefix with
non-decreasing keys), every leaf page is still well-formed in that sense
— keys are non-decreasing, not strictly increasing, and no
record-address tie-break is applied to equal keys (equal-key entries
simply keep their insertion order, as the counterexample
`c6_equal_keys_not_rid_ordered` shows). -/
theorem c6_leaves_nondecreasing_after_insertEntry (L N fuel : Nat) (hL : 3 ≤ L)
    (s : BTState) (key : Int) (rid : RecordId) (hrid : rid.page_number ≠ 0)
    (hs : leavesSortedP L s.pages) (s2 : BTState)
    (h : insertEntry L N fuel s key rid = some s2) :
    leavesSortedP L s2.pages := by
  unfold insertEntry at h
  split at h
  · rcases Option.map_eq_some'.mp h with ⟨a, ha, hfa⟩
    rw [← hfa]
    exact insertEntryHelper_preserves L N hL fuel { s with pins := s.pins + 1 }
      ⟨rid, key⟩ s.rootPageNum false a hrid hs ha
  · rcases Option.map_eq_some'.mp h with ⟨a, ha, hfa⟩
    rw [← hfa]
    exact insertEntryHelper_preserves L N hL fuel { s with pins := s.pins + 1 }
      ⟨rid, key⟩ s.rootPageNum true a hrid hs ha

lemma newIndexState_sorted : leavesSortedP 4 newIndexState.pages := by
  intro p l hp
  unfold newIndexState at hp
  dsimp only at hp
  split at hp
  · exact PageContent.noConfusion hp
  · split at hp
    · cases hp
      exact ⟨fun i _ hpop => absurd rfl hpop, fun i _ hpop => absurd rfl hpop⟩
    · exact PageContent.noConfusion hp

/-- C6 witness for `c6_leaves_nondecreasing_after_insertEntry`: a
concrete insert of `(7, (3,1))` into the fresh occupancy-4 index. -/
theorem c6_leaves_nondecreasing_after_insertEntry_witness :
    (3 ≤ 4 ∧ (⟨3, 1⟩ : RecordId).page_number ≠ 0 ∧
      leavesSortedP 4 newIndexState.pages) ∧
    leavesSortedP 4
      ((insertEntry 4 4 2 newIndexState 7 ⟨3, 1⟩).getD default).pages :=
  ⟨⟨by omega, by decide, newIndexState_sorted⟩,
    c6_leaves_nondecreasing_after_insertEntry 4 4 2 (by omega) newIndexState 7
      ⟨3, 1⟩ (by decide) newIndexState_sorted
      ((insertEntry 4 4 2 newIndexState 7 ⟨3, 1⟩).getD default) rfl⟩

end BtreeDBMS
